import Mathlib

/-!
# Mandelbrot renderer: shift, fill, escape-time evaluation and colourisation

A shallow embedding of `src/app/render.cpp` (the colour mappers `to_rgb_16`, `to_rgb_32`,
`to_rgb_64`, and `draw`, `copy_left`, `copy_right`, `copy`, `mandelbrot`, `render`)
together with `Matrix::row_begin` from `src/cuda_app/cuda_types.hpp`.

Conventions of the embedding:

* `u32` values are natural numbers below `4294967296`; every `u32` operation that can
  wrap in the source is written with an explicit `% 4294967296`.
* `i32` values are integers.
* The iteration buffer is the triple `width`, `height`, `data`, where `data` maps an
  element offset to the stored value.  The buffer holds `width * height` elements;
  a load or store at any other offset is a fault (`none`), and so is a failed
  `assert (y < height)` in `row_begin`.
* `r64` arithmetic is kept abstract: the operations are fields of `Env`.
* The palette tables of `colors.hpp` and the platform function `platform_to_color_32` are
  fields of `Colors`; a pixel is identified with its `value`.
* `std::for_each (std::execution::par, ...)`, `std::copy (std::execution::par, ...)` and
  `std::transform (std::execution::par, ...)` are run in increasing index order.
-/

namespace Mandelbrot

/-! ## Machine arithmetic -/

/-- Wrapping `u32` addition. -/
def add32 (a b : Nat) : Nat := (a + b) % 4294967296

/-- Wrapping `u32` subtraction. -/
def sub32 (a b : Nat) : Nat := (a + 4294967296 - b % 4294967296) % 4294967296

/-- Value of `u + i` for `u : u32`, `i : i32`: the `i32` is converted to `u32` and the sum
wraps. -/
def addi32 (u : Nat) (i : Int) : Nat := (((u : Int) + i) % 4294967296).toNat

/-- Value of `i * u` for `i : i32`, `u : u32`: the `i32` is converted to `u32` and the product
wraps. -/
def muli32 (i : Int) (u : Nat) : Nat := ((i * (u : Int)) % 4294967296).toNat

/-- Value of `static_cast<u32>(std::abs(i))`. -/
def abs32 (i : Int) : Nat := i.natAbs % 4294967296

/-! ## Data model -/

/-- Pixel displacement `Vec2Di32`. -/
structure Vec2Di32 where
  x : Int
  y : Int
deriving DecidableEq

/-- Half-open index rectangle `Range2Du32`. -/
structure Range2Du32 where
  x_begin : Nat
  x_end : Nat
  y_begin : Nat
  y_end : Nat
deriving DecidableEq

/-- The class `Matrix<u32>` (`mat_u32_t`): dimensions and the buffer contents by element
offset. -/
structure Matrix where
  width : Nat
  height : Nat
  data : Nat → Nat

namespace Matrix

/-- `Matrix::row_begin`: `assert(y < height)`, then the offset `y * width` of the row. -/
def row_begin (mat : Matrix) (y : Nat) : Option Nat :=
  if y < mat.height then some (y * mat.width) else none

/-- Load of the element at offset `p`; a fault outside the buffer. -/
def load (mat : Matrix) (p : Nat) : Option Nat :=
  if p < mat.width * mat.height then some (mat.data p) else none

/-- Store of `v` at offset `p`; a fault outside the buffer. -/
def store (mat : Matrix) (p v : Nat) : Option Matrix :=
  if p < mat.width * mat.height then
    some { mat with data := fun q => if q = p then v else mat.data q }
  else none

/-- Content of the cell in column `x` of row `y`. -/
def cell (mat : Matrix) (x y : Nat) : Nat := mat.data (y * mat.width + x)

end Matrix

/-- Counted loop: runs `body i`, `body (i+1)`, ... `count` times, stopping at the first fault.
`for (u32 ix = 0; ix < n; ++ix) body(ix)` is `loop body n 0`. -/
def loop {σ : Type} (body : Nat → σ → Option σ) : Nat → Nat → σ → Option σ
  | 0, _, s => some s
  | count + 1, i, s => (body i s).bind (loop body count (i + 1))

/-- Modelled from the spec: `UnsignedRange` of the absent `utils/index_range.hpp`, used with
`std::for_each`; it visits every index `i` with `first ≤ i < last` (the spec's explicit
(begin, end) index pair per axis), here in increasing order. -/
def for_each_range {σ : Type} (first last : Nat) (func : Nat → σ → Option σ) (s : σ) :
    Option σ :=
  loop func (last - first) first s

/-- `for_each_row`: applies `func` to every row index of the matrix. -/
def for_each_row (mat : Matrix) (func : Nat → Matrix → Option Matrix) : Option Matrix :=
  for_each_range 0 mat.height func mat

/-! ## Pixel buffer shifter -/

/-- Loop body of `copy_left`'s `copy_row_part`: `row[dst_x] = row[src_x]`. -/
def copy_left_step (n_cols row ix : Nat) (m : Matrix) : Option Matrix :=
  let src_x := add32 ix n_cols
  let dst_x := sub32 src_x n_cols
  (m.load (row + src_x)).bind (fun v => m.store (row + dst_x) v)

/-- `copy_left`. -/
def copy_left (mat : Matrix) (n_cols : Nat) : Option Matrix :=
  let x_len := sub32 mat.width n_cols
  let copy_row_part := fun (y : Nat) (m : Matrix) =>
    (m.row_begin y).bind (fun row => loop (copy_left_step n_cols row) x_len 0 m)
  for_each_row mat copy_row_part

/-- Loop body of `copy_right`'s `copy_row_part`: `row[dst_x] = row[src_x]`. -/
def copy_right_step (n_cols x_len row ix : Nat) (m : Matrix) : Option Matrix :=
  let src_x := sub32 (sub32 x_len 1) ix
  let dst_x := add32 src_x n_cols
  (m.load (row + src_x)).bind (fun v => m.store (row + dst_x) v)

/-- `copy_right`. -/
def copy_right (mat : Matrix) (n_cols : Nat) : Option Matrix :=
  let x_len := sub32 mat.width n_cols
  let copy_row_part := fun (y : Nat) (m : Matrix) =>
    (m.row_begin y).bind (fun row => loop (copy_right_step n_cols x_len row) x_len 0 m)
  for_each_row mat copy_row_part

/-- `std::copy(src_begin, src_begin + n, dst_begin)` on element offsets. -/
def std_copy (src_begin n dst_begin : Nat) (m : Matrix) : Option Matrix :=
  loop (fun i m => (m.load (src_begin + i)).bind (fun v => m.store (dst_begin + i) v)) n 0 m

/-- Body of the row loop of `copy` (lines 316-324). -/
def copy_rows_step (direction : Vec2Di32) (x_len src_x_begin dst_x_begin src_y_begin : Nat)
    (dy : Int) (iy : Nat) (m : Matrix) : Option Matrix :=
  let src_y := add32 src_y_begin (muli32 dy iy)
  let dst_y := addi32 src_y direction.y
  (m.row_begin src_y).bind (fun src_row =>
    (m.row_begin dst_y).bind (fun dst_row =>
      std_copy (src_row + src_x_begin) x_len (dst_row + dst_x_begin) m))

/-- `copy`: the in-place shift of the iteration buffer by `direction`. -/
def copy (mat : Matrix) (direction : Vec2Di32) : Option Matrix :=
  let up := decide (direction.y < 0)
  let right := decide (direction.x > 0)
  let n_cols := abs32 direction.x
  let n_rows := abs32 direction.y
  if n_cols = 0 ∧ n_rows = 0 then
    some mat
  else if n_rows = 0 then
    if right then copy_right mat n_cols else copy_left mat n_cols
  else
    let x_len := sub32 mat.width n_cols
    let y_len := sub32 mat.height n_rows
    let src_x_begin := if right then 0 else n_cols
    let dst_x_begin := addi32 src_x_begin direction.x
    let src_y_begin := if up then n_rows else sub32 y_len 1
    let dy : Int := if up then 1 else -1
    loop (copy_rows_step direction x_len src_x_begin dst_x_begin src_y_begin dy) y_len 0 mat

/-! ## Escape-time evaluator -/

/-- The `r64` operations and the view constants read by `mandelbrot`.  `limit` is the constant
`4.0`, `zero` is `0.0`, `ofU32` is the conversion of a `u32` operand, and `MBT_MIN_X`,
`MBT_MIN_Y`, `screen_width`, `screen_height` are the declarations of the absent `render.hpp`
(the last two already applied to the state of the frame). -/
structure Env (R : Type) where
  zero : R
  limit : R
  add : R → R → R
  sub : R → R → R
  mul : R → R → R
  div : R → R → R
  le : R → R → Bool
  ofU32 : Nat → R
  MBT_MIN_X : R
  MBT_MIN_Y : R
  screen_width : R
  screen_height : R

/-- `Point2Dr64`. -/
structure Point2Dr64 (R : Type) where
  x : R
  y : R

/-- The fields of `AppState` that `render` reads or writes, under the names `render.cpp` uses
(the class is declared in the absent `render.hpp`). -/
structure AppState (R : Type) where
  iterations : Matrix
  screen_pos : Point2Dr64 R
  pixel_shift : Vec2Di32
  max_iter : Nat
  rgb_option : Nat

/-- The local variables of `do_x` that the `while` loop updates. -/
structure Orbit (R : Type) where
  iter : Nat
  re : R
  im : R
  re2 : R
  im2 : R
  re2_old : R
  im2_old : R

/-- Initial values of the locals of `do_x` (lines 362-370). -/
def Orbit.init {R : Type} (env : Env R) : Orbit R :=
  { iter := 0, re := env.zero, im := env.zero, re2 := env.zero, im2 := env.zero,
    re2_old := env.zero, im2_old := env.zero }

/-- The escape test `re2 + im2 <= limit`. -/
def Orbit.bounded {R : Type} (env : Env R) (s : Orbit R) : Bool :=
  env.le (env.add s.re2 s.im2) env.limit

/-- Loop condition `iter < max_iter && re2 + im2 <= limit`. -/
def do_x_cond {R : Type} (env : Env R) (max_iter : Nat) (s : Orbit R) : Bool :=
  decide (s.iter < max_iter) && s.bounded env

/-- Loop body of `do_x` (lines 374-381). -/
def do_x_body {R : Type} (env : Env R) (cr ci : R) (s : Orbit R) : Orbit R :=
  let re2_old := s.re2
  let im2_old := s.im2
  let im := env.add (env.mul (env.add s.re s.re) s.im) ci
  let re := env.add (env.sub s.re2 s.im2) cr
  let im2 := env.mul im im
  let re2 := env.mul re re
  { iter := add32 s.iter 1, re := re, im := im, re2 := re2, im2 := im2,
    re2_old := re2_old, im2_old := im2_old }

/-- The `while` loop of `do_x`, with a bound on the number of body executions. -/
def do_x_while {R : Type} (env : Env R) (cr ci : R) (max_iter : Nat) : Nat → Orbit R → Orbit R
  | 0, s => s
  | fuel + 1, s =>
    if do_x_cond env max_iter s then do_x_while env cr ci max_iter fuel (do_x_body env cr ci s)
    else s

/-- State of `do_x` when its loop exits: the loop body runs at most `max_iter` times. -/
def do_x_exit {R : Type} (env : Env R) (cr ci : R) (max_iter : Nat) : Orbit R :=
  do_x_while env cr ci max_iter max_iter (Orbit.init env)

/-- The value `do_x` stores in `row[x]`: the loop counter after `--iter`. -/
def do_x_value {R : Type} (env : Env R) (min_re re_step ci : R) (max_iter x : Nat) : Nat :=
  let cr := env.add min_re (env.mul (env.ofU32 x) re_step)
  sub32 (do_x_exit env cr ci max_iter).iter 1

/-- `min_re` of `mandelbrot`. -/
def min_re {R : Type} (env : Env R) (state : AppState R) : R :=
  env.add env.MBT_MIN_X state.screen_pos.x

/-- `min_im` of `mandelbrot`. -/
def min_im {R : Type} (env : Env R) (state : AppState R) : R :=
  env.add env.MBT_MIN_Y state.screen_pos.y

/-- `re_step` of `mandelbrot`. -/
def re_step {R : Type} (env : Env R) (state : AppState R) : R :=
  env.div env.screen_width (env.ofU32 state.iterations.width)

/-- `im_step` of `mandelbrot`. -/
def im_step {R : Type} (env : Env R) (state : AppState R) : R :=
  env.div env.screen_height (env.ofU32 state.iterations.height)

/-- The value the evaluator computes for the cell in column `x` of row `y`
(`ci` from `do_row`, then `do_x`). -/
def escape_value {R : Type} (env : Env R) (state : AppState R) (x y : Nat) : Nat :=
  let ci := env.add (min_im env state) (env.mul (env.ofU32 y) (im_step env state))
  do_x_value env (min_re env state) (re_step env state) ci state.max_iter x

/-- `do_x`: evaluates the cell and stores the value in `row[x]`. -/
def do_x {R : Type} (env : Env R) (state : AppState R) (ci : R) (row x : Nat) (dst : Matrix) :
    Option Matrix :=
  dst.store (row + x) (do_x_value env (min_re env state) (re_step env state) ci state.max_iter x)

/-- `do_row`. -/
def do_row {R : Type} (env : Env R) (state : AppState R) (range : Range2Du32) (y : Nat)
    (dst : Matrix) : Option Matrix :=
  let ci := env.add (min_im env state) (env.mul (env.ofU32 y) (im_step env state))
  (dst.row_begin y).bind (fun row =>
    for_each_range range.x_begin range.x_end (do_x env state ci row) dst)

/-- `do_mandelbrot`: evaluates every cell of `range`. -/
def do_mandelbrot {R : Type} (env : Env R) (state : AppState R) (range : Range2Du32)
    (dst : Matrix) : Option Matrix :=
  for_each_range range.y_begin range.y_end (do_row env state range) dst

/-! ## Frame orchestration -/

/-- `get_range`. -/
def get_range (width height : Nat) : Range2Du32 :=
  { x_begin := 0, x_end := width, y_begin := 0, y_end := height }

/-- The ranges `mandelbrot` passes to `do_mandelbrot`, in call order (lines 395-469), for a
buffer of the given dimensions. -/
def mandelbrot_ranges (width height : Nat) (shift : Vec2Di32) : List Range2Du32 :=
  let do_left := decide (shift.x > 0)
  let do_top := decide (shift.y > 0)
  let n_cols := abs32 shift.x
  let n_rows := abs32 shift.y
  let no_horizontal := decide (n_cols = 0)
  let no_vertical := decide (n_rows = 0)
  let r := get_range width height
  if no_horizontal && no_vertical then
    [r]
  else if no_horizontal then
    if do_top then [{ r with y_end := n_rows }]
    else [{ r with y_begin := sub32 (sub32 height 1) n_rows }]
  else if no_vertical then
    if do_left then [{ r with x_end := n_cols }]
    else [{ r with x_begin := sub32 (sub32 width 1) n_cols }]
  else
    let r2 := r
    let r1 := if do_top then { r with y_end := n_rows }
      else { r with y_begin := sub32 (sub32 height 1) n_rows }
    let r2 := if do_top then { r2 with y_begin := n_rows }
      else { r2 with y_end := sub32 (sub32 height 1) n_rows }
    let r2 := if do_left then { r2 with x_end := n_cols }
      else { r2 with x_begin := sub32 (sub32 width 1) n_cols }
    [r1, r2]

/-- Runs `do_mandelbrot` on each range in turn. -/
def do_ranges {R : Type} (env : Env R) (state : AppState R) :
    List Range2Du32 → Matrix → Option Matrix
  | [], dst => some dst
  | r :: rs, dst => (do_mandelbrot env state r dst).bind (do_ranges env state rs)

/-- `mandelbrot`: evaluates the ranges selected from `state.pixel_shift` into
`state.iterations`. -/
def mandelbrot {R : Type} (env : Env R) (state : AppState R) : Option (AppState R) :=
  (do_ranges env state
      (mandelbrot_ranges state.iterations.width state.iterations.height state.pixel_shift)
      state.iterations).map
    (fun dst => { state with iterations := dst })

/-- The first two statements of `render`: `copy (state.iterations, state.pixel_shift)` followed
by `mandelbrot (state)`.  The remaining statement, `draw`, only reads the buffer. -/
def render_iterations {R : Type} (env : Env R) (state : AppState R) : Option (AppState R) :=
  (copy state.iterations state.pixel_shift).bind
    (fun m => mandelbrot env { state with iterations := m })

/-- Whether the cell in column `x` of row `y` lies in `range`. -/
def Range2Du32.contains (range : Range2Du32) (x y : Nat) : Bool :=
  decide (range.x_begin ≤ x) && decide (x < range.x_end) &&
    decide (range.y_begin ≤ y) && decide (y < range.y_end)

/-- Whether `mandelbrot` evaluates the cell in column `x` of row `y`: it lies in one of the
ranges passed to `do_mandelbrot`. -/
def evaluated (width height : Nat) (shift : Vec2Di32) (x y : Nat) : Bool :=
  (mandelbrot_ranges width height shift).any (fun r => r.contains x y)

/-- Whether `(x, y)` is a cell of a `width` by `height` grid. -/
def in_grid (width height : Nat) (x y : Int) : Prop :=
  0 ≤ x ∧ x < width ∧ 0 ≤ y ∧ y < height

instance (width height : Nat) (x y : Int) : Decidable (in_grid width height x y) :=
  inferInstanceAs (Decidable (0 ≤ x ∧ x < width ∧ 0 ≤ y ∧ y < height))

/-- Integer arithmetic as an instance of the `r64` operations, with the view constants of the
initial view set so that every sample point is the origin of the complex plane. -/
def intEnv : Env Int :=
  { zero := 0, limit := 4, add := fun a b => a + b, sub := fun a b => a - b,
    mul := fun a b => a * b, div := fun a b => a / b, le := fun a b => decide (a ≤ b),
    ofU32 := fun n => (n : Int), MBT_MIN_X := 0, MBT_MIN_Y := 0,
    screen_width := 0, screen_height := 0 }

/-- The in-grid cells of `m` are given by `f`, and `m` is `w` by `h`. -/
def Rep (m : Matrix) (w h : Nat) (f : Nat → Nat → Nat) : Prop :=
  m.width = w ∧ m.height = h ∧ ∀ x y, x < w → y < h → m.cell x y = f x y

/-- A 4 by 3 grid whose cell at offset `p` holds `p + 100`. -/
def sampleGrid : Matrix := { width := 4, height := 3, data := fun p => p + 100 }

/-- A one-row grid of width 100 whose cell in column `x` holds `x`. -/
def wideGrid : Matrix := { width := 100, height := 1, data := fun p => p }

/-- A frame state over the integer instance: grid `mat`, shift `shift`, bound `max_iter`. -/
def sampleState (mat : Matrix) (shift : Vec2Di32) (max_iter : Nat) : AppState Int :=
  { iterations := mat, screen_pos := { x := 0, y := 0 }, pixel_shift := shift,
    max_iter := max_iter, rgb_option := 0 }

/-- A 4 by 3 grid in which every cell holds `4`. -/
def filledGrid : Matrix := { width := 4, height := 3, data := fun _ => 4 }

/-- State of the locals of `do_x` after `k` executions of the loop body. -/
def orbit {R : Type} (env : Env R) (cr ci : R) : Nat → Orbit R
  | 0 => Orbit.init env
  | k + 1 => do_x_body env cr ci (orbit env cr ci k)

/-- The `cr` of `do_x` for column `x`. -/
def cell_cr {R : Type} (env : Env R) (state : AppState R) (x : Nat) : R :=
  env.add (min_re env state) (env.mul (env.ofU32 x) (re_step env state))

/-- The `ci` of `do_row` for row `y`. -/
def cell_ci {R : Type} (env : Env R) (state : AppState R) (y : Nat) : R :=
  env.add (min_im env state) (env.mul (env.ofU32 y) (im_step env state))

/-! ## Colour mapper -/

/-- The declarations the colour mapper takes from outside `render.cpp`: the platform function
`platform_to_color_32` (declared in `render.cpp`, defined per platform) and the tables
`palettes16`, `palettes32`, `palettes64` of the absent `colors.hpp`, read as
`palettesN[channel][index]`. -/
structure Colors where
  platform_to_color_32 : Nat → Nat → Nat → Nat
  palettes16 : Nat → Nat → Nat
  palettes32 : Nat → Nat → Nat
  palettes64 : Nat → Nat → Nat

/-- `to_platform_pixel (red, green, blue)`: the pixel, identified with its `value` field. -/
def to_platform_pixel (cs : Colors) (red green blue : Nat) : Nat :=
  cs.platform_to_color_32 red green blue

/-- The `switch (rgb_option)` of `to_rgb_64`, `to_rgb_32` and `to_rgb_16` (the same text in the
three functions): the values of `c1`, `c2`, `c3` after it, all three initialised to `0`. -/
def rgb_channels (rgb_option : Nat) : Nat × Nat × Nat :=
  match rgb_option with
  | 1 => (0, 1, 2)
  | 2 => (0, 2, 1)
  | 3 => (1, 0, 2)
  | 4 => (1, 2, 0)
  | 5 => (2, 0, 1)
  | 6 => (2, 1, 0)
  | _ => (0, 0, 0)

/-- `to_rgb_64`.  `color_map c` is the element `color_map[c]` of the three-element array. -/
def to_rgb_64 (cs : Colors) (iterations max_iter rgb_option : Nat) : Nat :=
  if iterations ≥ max_iter then
    to_platform_pixel cs 0 0 0
  else
    let i := iterations % 64
    let color_map : Nat → Nat := fun c => cs.palettes64 c i
    let c := rgb_channels rgb_option
    to_platform_pixel cs (color_map c.1) (color_map c.2.1) (color_map c.2.2)

/-- `to_rgb_32`. -/
def to_rgb_32 (cs : Colors) (iterations max_iter rgb_option : Nat) : Nat :=
  if iterations ≥ max_iter then
    to_platform_pixel cs 0 0 0
  else
    let i := iterations % 32
    let color_map : Nat → Nat := fun c => cs.palettes32 c i
    let c := rgb_channels rgb_option
    to_platform_pixel cs (color_map c.1) (color_map c.2.1) (color_map c.2.2)

/-- `to_rgb_16`. -/
def to_rgb_16 (cs : Colors) (iterations max_iter rgb_option : Nat) : Nat :=
  if iterations ≥ max_iter then
    to_platform_pixel cs 0 0 0
  else
    let i := iterations % 16
    let color_map : Nat → Nat := fun c => cs.palettes16 c i
    let c := rgb_channels rgb_option
    to_platform_pixel cs (color_map c.1) (color_map c.2.1) (color_map c.2.2)

/-- A sample instance of the outside declarations: every table holds `40 * channel + index + 1`
at `[channel][index]`, and a pixel packs its channels as `red + 256 * green + 65536 * blue`. -/
def sampleColors : Colors :=
  { platform_to_color_32 := fun r g b => r + 256 * g + 65536 * b,
    palettes16 := fun c i => 40 * c + i + 1,
    palettes32 := fun c i => 40 * c + i + 1,
    palettes64 := fun c i => 40 * c + i + 1 }

/-! ## Colourisation -/

/-- Smallest of the elements at the offsets `0..k`. -/
def min_upto (data : Nat → Nat) : Nat → Nat
  | 0 => data 0
  | k + 1 => min (min_upto data k) (data (k + 1))

/-- Largest of the elements at the offsets `0..k`. -/
def max_upto (data : Nat → Nat) : Nat → Nat
  | 0 => data 0
  | k + 1 => max (max_upto data k) (data (k + 1))

/-- `std::minmax_element (mat.begin (), mat.end ())` with the two dereferences that follow it
in `draw`: the smallest and the largest element of the buffer.  For an empty buffer both
iterators are `mat.end ()` and the dereference is a fault. -/
def minmax_element (mat : Matrix) : Option (Nat × Nat) :=
  if mat.width * mat.height = 0 then none
  else some (min_upto mat.data (mat.width * mat.height - 1),
    max_upto mat.data (mat.width * mat.height - 1))

/-- `draw`: writes `to_rgb_64 (i - min, max - min, rgb_option)` for every element `i` of
`state.iterations` to the element of the image `dst` at the same offset (`std::transform`).
The image is a matrix of pixels, each identified with its `value`. -/
def draw {R : Type} (cs : Colors) (dst : Matrix) (state : AppState R) : Option Matrix :=
  let mat := state.iterations
  (minmax_element mat).bind (fun mm =>
    let min := mm.1
    let max := mm.2
    let diff := sub32 max min
    let to_platform_color := fun (i : Nat) => to_rgb_64 cs (sub32 i min) diff state.rgb_option
    loop (fun p d => (mat.load p).bind (fun i => d.store p (to_platform_color i)))
      (mat.width * mat.height) 0 dst)

/-- `render`: `copy`, `mandelbrot`, then `draw` into the image `dst`. -/
def render {R : Type} (cs : Colors) (env : Env R) (dst : Matrix) (state : AppState R) :
    Option (Matrix × AppState R) :=
  (render_iterations env state).bind (fun s => (draw cs dst s).map (fun d => (d, s)))

/-- An instance of the outside declarations whose 64-entry tables are zero at every index. -/
def darkColors : Colors :=
  { platform_to_color_32 := fun r g b => r + 256 * g + 65536 * b,
    palettes16 := fun c i => 40 * c + i + 1,
    palettes32 := fun c i => 40 * c + i + 1,
    palettes64 := fun _ _ => 0 }

/-- A 4 by 4 grid in which every cell holds `99`. -/
def flatGrid : Matrix := { width := 4, height := 4, data := fun _ => 99 }

/-- A 4 by 4 image. -/
def sampleImage : Matrix := { width := 4, height := 4, data := fun _ => 7 }

/-- A 2 by 1 grid holding `0` and `1`. -/
def stepGrid : Matrix := { width := 2, height := 1, data := fun p => p }

/-- A 2 by 1 image. -/
def smallImage : Matrix := { width := 2, height := 1, data := fun _ => 7 }

/-- Exact rational arithmetic as an instance of the `r64` operations, for given view
constants. -/
def ratEnv (min_x min_y width height : ℚ) : Env ℚ :=
  { zero := 0, limit := 4, add := fun a b => a + b, sub := fun a b => a - b,
    mul := fun a b => a * b, div := fun a b => a / b, le := fun a b => decide (a ≤ b),
    ofU32 := fun n => (n : ℚ), MBT_MIN_X := min_x, MBT_MIN_Y := min_y,
    screen_width := width, screen_height := height }

/-- The naive recurrence of the specification, `z_0 = 0`, `z_{n+1} = z_n² + c` with
`c = (cr, ci)`, on pairs (real part, imaginary part): the square of `a + b i` is
`(a² - b²) + (2 a b) i`. -/
def naive_orbit (cr ci : ℚ) : Nat → ℚ × ℚ
  | 0 => (0, 0)
  | n + 1 =>
    ((naive_orbit cr ci n).1 * (naive_orbit cr ci n).1
        - (naive_orbit cr ci n).2 * (naive_orbit cr ci n).2 + cr,
      2 * (naive_orbit cr ci n).1 * (naive_orbit cr ci n).2 + ci)

/-- Squared magnitude `|z|²` of a pair (real part, imaginary part). -/
def norm_sq (z : ℚ × ℚ) : ℚ := z.1 * z.1 + z.2 * z.2

/-! ## Shift and fill with the contracts checked

The functions below repeat `copy_left`, `copy_right`, `copy`, `do_mandelbrot` and the range
selection of `mandelbrot` with every contract made a fault: a `u32` subtraction that would
wrap, a column index that is not below `width`, and a range handed to `do_mandelbrot` that is
not well formed or not inside the grid.  The row contract `y < height` is the assertion of
`row_begin`. -/

/-- The `u32` subtraction `a - b` under the contract that it does not wrap. -/
def sub32_checked (a b : Nat) : Option Nat :=
  if b ≤ a then some (sub32 a b) else none

/-- `copy_left` with its contracts checked: `width - n_cols` and `src_x - n_cols` do not wrap
and both column indices are below `width`. -/
def copy_left_checked (mat : Matrix) (n_cols : Nat) : Option Matrix :=
  (sub32_checked mat.width n_cols).bind (fun x_len =>
    for_each_row mat (fun y m =>
      (m.row_begin y).bind (fun row =>
        loop (fun ix m =>
          if n_cols ≤ add32 ix n_cols ∧ add32 ix n_cols < mat.width ∧
              sub32 (add32 ix n_cols) n_cols < mat.width then
            copy_left_step n_cols row ix m
          else none) x_len 0 m)))

/-- `copy_right` with its contracts checked: `width - n_cols` and `x_len - 1 - ix` do not wrap
and both column indices are below `width`. -/
def copy_right_checked (mat : Matrix) (n_cols : Nat) : Option Matrix :=
  (sub32_checked mat.width n_cols).bind (fun x_len =>
    for_each_row mat (fun y m =>
      (m.row_begin y).bind (fun row =>
        loop (fun ix m =>
          if 1 ≤ x_len ∧ ix ≤ sub32 x_len 1 ∧ sub32 (sub32 x_len 1) ix < mat.width ∧
              add32 (sub32 (sub32 x_len 1) ix) n_cols < mat.width then
            copy_right_step n_cols x_len row ix m
          else none) x_len 0 m)))

/-- Body of the row loop of `copy` with the column contract checked at every element of the
copied span. -/
def copy_rows_step_checked (width : Nat) (direction : Vec2Di32)
    (x_len src_x_begin dst_x_begin src_y_begin : Nat) (dy : Int) (iy : Nat) (m : Matrix) :
    Option Matrix :=
  let src_y := add32 src_y_begin (muli32 dy iy)
  let dst_y := addi32 src_y direction.y
  (m.row_begin src_y).bind (fun src_row =>
    (m.row_begin dst_y).bind (fun dst_row =>
      loop (fun i m =>
        if src_x_begin + i < width ∧ dst_x_begin + i < width then
          (m.load (src_row + src_x_begin + i)).bind
            (fun v => m.store (dst_row + dst_x_begin + i) v)
        else none) x_len 0 m))

/-- `copy` with its contracts checked: `width - n_cols`, `height - n_rows` and `y_len - 1` do
not wrap, and every column index is below `width`. -/
def copy_checked (mat : Matrix) (direction : Vec2Di32) : Option Matrix :=
  let up := decide (direction.y < 0)
  let right := decide (direction.x > 0)
  let n_cols := abs32 direction.x
  let n_rows := abs32 direction.y
  if n_cols = 0 ∧ n_rows = 0 then
    some mat
  else if n_rows = 0 then
    if right then copy_right_checked mat n_cols else copy_left_checked mat n_cols
  else
    (sub32_checked mat.width n_cols).bind (fun x_len =>
      (sub32_checked mat.height n_rows).bind (fun y_len =>
        let src_x_begin := if right then 0 else n_cols
        let dst_x_begin := addi32 src_x_begin direction.x
        (if up then some n_rows else sub32_checked y_len 1).bind (fun src_y_begin =>
          let dy : Int := if up then 1 else -1
          loop (copy_rows_step_checked mat.width direction x_len src_x_begin dst_x_begin
            src_y_begin dy) y_len 0 mat)))

/-- `do_mandelbrot` with its contracts checked: the range satisfies
`x_begin ≤ x_end ≤ width` and `y_begin ≤ y_end ≤ height`, and `do_x` writes a column below
`width`. -/
def do_mandelbrot_checked {R : Type} (env : Env R) (state : AppState R) (range : Range2Du32)
    (dst : Matrix) : Option Matrix :=
  if range.x_begin ≤ range.x_end ∧ range.x_end ≤ dst.width ∧
      range.y_begin ≤ range.y_end ∧ range.y_end ≤ dst.height then
    for_each_range range.y_begin range.y_end (fun y m =>
      let ci := env.add (min_im env state) (env.mul (env.ofU32 y) (im_step env state))
      (m.row_begin y).bind (fun row =>
        for_each_range range.x_begin range.x_end (fun x m =>
          if x < dst.width then do_x env state ci row x m else none) m)) dst
  else none

/-- The range selection of `mandelbrot` with `width - 1 - n_cols` and `height - 1 - n_rows`
checked not to wrap. -/
def mandelbrot_ranges_checked (width height : Nat) (shift : Vec2Di32) :
    Option (List Range2Du32) :=
  let do_left := decide (shift.x > 0)
  let do_top := decide (shift.y > 0)
  let n_cols := abs32 shift.x
  let n_rows := abs32 shift.y
  let no_horizontal := decide (n_cols = 0)
  let no_vertical := decide (n_rows = 0)
  let r := get_range width height
  if no_horizontal && no_vertical then
    some [r]
  else if no_horizontal then
    if do_top then some [{ r with y_end := n_rows }]
    else ((sub32_checked height 1).bind (fun a => sub32_checked a n_rows)).map
      (fun b => [{ r with y_begin := b }])
  else if no_vertical then
    if do_left then some [{ r with x_end := n_cols }]
    else ((sub32_checked width 1).bind (fun a => sub32_checked a n_cols)).map
      (fun b => [{ r with x_begin := b }])
  else
    (if do_top then some ({ r with y_end := n_rows }, { r with y_begin := n_rows })
      else ((sub32_checked height 1).bind (fun a => sub32_checked a n_rows)).map
        (fun b => ({ r with y_begin := b }, { r with y_end := b }))).bind (fun rr =>
      (if do_left then some { rr.2 with x_end := n_cols }
        else ((sub32_checked width 1).bind (fun a => sub32_checked a n_cols)).map
          (fun b => { rr.2 with x_begin := b })).map (fun r2 => [rr.1, r2]))

/-- Runs `do_mandelbrot_checked` on each range in turn. -/
def do_ranges_checked {R : Type} (env : Env R) (state : AppState R) :
    List Range2Du32 → Matrix → Option Matrix
  | [], dst => some dst
  | r :: rs, dst =>
    (do_mandelbrot_checked env state r dst).bind (do_ranges_checked env state rs)

/-- `mandelbrot` with its contracts checked. -/
def mandelbrot_checked {R : Type} (env : Env R) (state : AppState R) :
    Option (AppState R) :=
  (mandelbrot_ranges_checked state.iterations.width state.iterations.height
      state.pixel_shift).bind (fun rs =>
    (do_ranges_checked env state rs state.iterations).map
      (fun dst => { state with iterations := dst }))

/-- The shift and fill phases of `render` with their contracts checked. -/
def render_iterations_checked {R : Type} (env : Env R) (state : AppState R) :
    Option (AppState R) :=
  (copy_checked state.iterations state.pixel_shift).bind
    (fun m => mandelbrot_checked env { state with iterations := m })

/-! ## Loops, offsets and the representation of a grid -/

theorem loop_invariant {σ : Type} (body : Nat → σ → Option σ) (P : Nat → σ → Prop) :
    ∀ (n i : Nat) (s : σ), P i s →
      (∀ j t, i ≤ j → j < i + n → P j t → ∃ t', body j t = some t' ∧ P (j + 1) t') →
      ∃ s', loop body n i s = some s' ∧ P (i + n) s' := by
  intro n
  induction n with
  | zero => intro i s hP _; exact ⟨s, rfl, by simpa using hP⟩
  | succ k ih =>
    intro i s hP hstep
    obtain ⟨t, ht, hPt⟩ := hstep i s (Nat.le_refl i) (by omega) hP
    obtain ⟨s', hs', hP'⟩ := ih (i + 1) t hPt (fun j u hj1 hj2 hu =>
      hstep j u (by omega) (by omega) hu)
    refine ⟨s', ?_, ?_⟩
    · simp [loop, ht, hs']
    · have : i + (k + 1) = i + 1 + k := by omega
      rw [this]; exact hP'

theorem offset_lt {w h x y : Nat} (hx : x < w) (hy : y < h) : y * w + x < w * h := by
  have h1 : y * w + x < (y + 1) * w := by rw [Nat.add_mul]; omega
  have h2 : (y + 1) * w ≤ h * w := Nat.mul_le_mul_right w hy
  rw [Nat.mul_comm w h]; omega

theorem offset_inj {w x y x' y' : Nat} (hx : x < w) (hx' : x' < w)
    (he : y * w + x = y' * w + x') : x = x' ∧ y = y' := by
  have hw : 0 < w := by omega
  have h1 : (y * w + x) / w = y := by
    rw [Nat.mul_comm, Nat.mul_add_div hw, Nat.div_eq_of_lt hx]; rfl
  have h2 : (y' * w + x') / w = y' := by
    rw [Nat.mul_comm, Nat.mul_add_div hw, Nat.div_eq_of_lt hx']; rfl
  have hy : y = y' := by rw [← h1, ← h2, he]
  subst hy
  exact ⟨by omega, rfl⟩

theorem Rep.congr {m : Matrix} {w h : Nat} {f g : Nat → Nat → Nat} (hr : Rep m w h f)
    (hfg : ∀ x y, x < w → y < h → f x y = g x y) : Rep m w h g :=
  ⟨hr.1, hr.2.1, fun x y hx hy => (hr.2.2 x y hx hy).trans (hfg x y hx hy)⟩

theorem Rep.self (m : Matrix) : Rep m m.width m.height (fun x y => m.cell x y) :=
  ⟨rfl, rfl, fun _ _ _ _ => rfl⟩

theorem store_rep {m : Matrix} {w h : Nat} {f : Nat → Nat → Nat} (hr : Rep m w h f)
    {x y : Nat} (hx : x < w) (hy : y < h) (v : Nat) :
    ∃ m', m.store (y * w + x) v = some m' ∧
      Rep m' w h (fun x' y' => if x' = x ∧ y' = y then v else f x' y') := by
  obtain ⟨hw, hh, hc⟩ := hr
  have hlt : y * w + x < m.width * m.height := by rw [hw, hh]; exact offset_lt hx hy
  refine ⟨{ m with data := fun q => if q = y * w + x then v else m.data q }, ?_, hw, hh, ?_⟩
  · simp [Matrix.store, hlt]
  intro x' y' hx' hy'
  show (if y' * m.width + x' = y * w + x then v else m.data (y' * m.width + x')) =
    if x' = x ∧ y' = y then v else f x' y'
  rw [hw]
  by_cases hxy : x' = x ∧ y' = y
  · obtain ⟨rfl, rfl⟩ := hxy
    simp
  · have hne : ¬ (y' * w + x' = y * w + x) := fun he => hxy (offset_inj hx' hx he)
    rw [if_neg hne, if_neg hxy]
    have := hc x' y' hx' hy'
    simpa [Matrix.cell, hw] using this

theorem load_rep {m : Matrix} {w h : Nat} {f : Nat → Nat → Nat} (hr : Rep m w h f)
    {x y : Nat} (hx : x < w) (hy : y < h) : m.load (y * w + x) = some (f x y) := by
  obtain ⟨hw, hh, hc⟩ := hr
  have hlt : y * w + x < m.width * m.height := by rw [hw, hh]; exact offset_lt hx hy
  have := hc x y hx hy
  simp only [Matrix.cell, hw] at this
  simp [Matrix.load, hlt, this]

theorem row_begin_rep {m : Matrix} {w h : Nat} {f : Nat → Nat → Nat} (hr : Rep m w h f)
    {y : Nat} (hy : y < h) : m.row_begin y = some (y * w) := by
  obtain ⟨hw, hh, _⟩ := hr
  simp [Matrix.row_begin, hw, hh, hy]

/-- One element copy `dst[..] = src[..]` between two in-grid cells. -/
theorem move_rep {m : Matrix} {w h : Nat} {f : Nat → Nat → Nat} (hr : Rep m w h f)
    (sx sy tx ty : Nat) (hsx : sx < w) (hsy : sy < h) (htx : tx < w) (hty : ty < h) :
    ∃ m', (m.load (sy * w + sx)).bind (fun v => m.store (ty * w + tx) v) = some m' ∧
      Rep m' w h (fun x y => if x = tx ∧ y = ty then f sx sy else f x y) := by
  rw [load_rep hr hsx hsy]
  exact store_rep hr htx hty _

theorem copy_left_row_rep {m : Matrix} {w h : Nat} {f : Nat → Nat → Nat} (hr : Rep m w h f)
    (hw : w < 4294967296) {n : Nat} (hn : n ≤ w) {y : Nat} (hy : y < h) :
    ∃ m', loop (copy_left_step n (y * w)) (w - n) 0 m = some m' ∧
      Rep m' w h (fun x y' => if y' = y ∧ x + n < w then f (x + n) y' else f x y') := by
  obtain ⟨m', hm', hP⟩ := loop_invariant (copy_left_step n (y * w))
    (fun i t => Rep t w h (fun x y' => if y' = y ∧ x < i then f (x + n) y' else f x y'))
    (w - n) 0 m (hr.congr (by intro x y' _ _; simp)) (by
      intro j t _ hj ht
      have h1 : add32 j n = j + n := by unfold add32; omega
      have h2 : sub32 (j + n) n = j := by unfold sub32; omega
      obtain ⟨t', ht', hr'⟩ := move_rep ht (j + n) y j y
        (by omega) hy (by omega) hy
      refine ⟨t', ?_, hr'.congr ?_⟩
      · simpa [copy_left_step, h1, h2] using ht'
      · intro x y' _ _
        beta_reduce
        split_ifs <;> first | rfl | (exfalso; omega) | (congr 1 <;> omega))
  refine ⟨m', hm', hP.congr ?_⟩
  intro x y' _ _
  beta_reduce
  split_ifs <;> first | rfl | (exfalso; omega)

theorem copy_left_rep {m : Matrix} {w h : Nat} {f : Nat → Nat → Nat} (hr : Rep m w h f)
    (hw : w < 4294967296) {n : Nat} (hn : n ≤ w) :
    ∃ m', copy_left m n = some m' ∧
      Rep m' w h (fun x y => if x + n < w then f (x + n) y else f x y) := by
  have hxl : sub32 m.width n = w - n := by rw [hr.1]; unfold sub32; omega
  obtain ⟨m', hm', hP⟩ := loop_invariant
    (fun (y : Nat) (t : Matrix) =>
      (t.row_begin y).bind (fun row => loop (copy_left_step n row) (w - n) 0 t))
    (fun i t => Rep t w h (fun x y => if y < i ∧ x + n < w then f (x + n) y else f x y))
    h 0 m (hr.congr (by intro x y _ _; simp)) (by
      intro j t _ hj ht
      obtain ⟨t', ht', hr'⟩ := copy_left_row_rep ht hw hn (y := j) (by omega)
      refine ⟨t', ?_, hr'.congr ?_⟩
      · show (t.row_begin j).bind _ = _
        rw [row_begin_rep ht (by omega)]; exact ht'
      · intro x y' _ _
        beta_reduce
        split_ifs <;> first | rfl | (exfalso; omega))
  refine ⟨m', ?_, hP.congr ?_⟩
  · simp only [copy_left, for_each_row, for_each_range, hxl, hr.2.1, Nat.sub_zero]
    exact hm'
  · intro x y' _ hy'
    beta_reduce
    split_ifs <;> first | rfl | (exfalso; omega)

theorem copy_right_row_rep {m : Matrix} {w h : Nat} {f : Nat → Nat → Nat} (hr : Rep m w h f)
    (hw : w < 4294967296) {n : Nat} (hn : n ≤ w) {y : Nat} (hy : y < h) :
    ∃ m', loop (copy_right_step n (w - n) (y * w)) (w - n) 0 m = some m' ∧
      Rep m' w h (fun x y' => if y' = y ∧ n ≤ x then f (x - n) y' else f x y') := by
  obtain ⟨m', hm', hP⟩ := loop_invariant (copy_right_step n (w - n) (y * w))
    (fun i t => Rep t w h (fun x y' => if y' = y ∧ w - i ≤ x then f (x - n) y' else f x y'))
    (w - n) 0 m (hr.congr (by
      intro x y' _ _
      split_ifs <;> first | rfl | (exfalso; omega))) (by
      intro j t _ hj ht
      have h1 : sub32 (sub32 (w - n) 1) j = w - n - 1 - j := by unfold sub32; omega
      have h2 : add32 (w - n - 1 - j) n = w - 1 - j := by unfold add32; omega
      obtain ⟨t', ht', hr'⟩ :=
        move_rep ht (w - n - 1 - j) y (w - 1 - j) y (by omega) hy (by omega) hy
      refine ⟨t', ?_, hr'.congr ?_⟩
      · simpa [copy_right_step, h1, h2] using ht'
      · intro x y' _ _
        beta_reduce
        split_ifs <;> first | rfl | (exfalso; omega) | (congr 1 <;> omega))
  refine ⟨m', hm', hP.congr ?_⟩
  intro x y' _ _
  beta_reduce
  split_ifs <;> first | rfl | (exfalso; omega)

theorem copy_right_rep {m : Matrix} {w h : Nat} {f : Nat → Nat → Nat} (hr : Rep m w h f)
    (hw : w < 4294967296) {n : Nat} (hn : n ≤ w) :
    ∃ m', copy_right m n = some m' ∧
      Rep m' w h (fun x y => if n ≤ x then f (x - n) y else f x y) := by
  have hxl : sub32 m.width n = w - n := by rw [hr.1]; unfold sub32; omega
  obtain ⟨m', hm', hP⟩ := loop_invariant
    (fun (y : Nat) (t : Matrix) =>
      (t.row_begin y).bind (fun row => loop (copy_right_step n (w - n) row) (w - n) 0 t))
    (fun i t => Rep t w h (fun x y => if y < i ∧ n ≤ x then f (x - n) y else f x y))
    h 0 m (hr.congr (by intro x y _ _; simp)) (by
      intro j t _ hj ht
      obtain ⟨t', ht', hr'⟩ := copy_right_row_rep ht hw hn (y := j) (by omega)
      refine ⟨t', ?_, hr'.congr ?_⟩
      · show (t.row_begin j).bind _ = _
        rw [row_begin_rep ht (by omega)]; exact ht'
      · intro x y' _ _
        beta_reduce
        split_ifs <;> first | rfl | (exfalso; omega))
  refine ⟨m', ?_, hP.congr ?_⟩
  · simp only [copy_right, for_each_row, for_each_range, hxl, hr.2.1, Nat.sub_zero]
    exact hm'
  · intro x y' _ hy'
    beta_reduce
    split_ifs <;> first | rfl | (exfalso; omega)

/-- A row span copied between two distinct rows. -/
theorem std_copy_rep {m : Matrix} {w h : Nat} {f : Nat → Nat → Nat} (hr : Rep m w h f)
    (sx sy tx ty n : Nat) (hsx : sx + n ≤ w) (hsy : sy < h) (htx : tx + n ≤ w) (hty : ty < h)
    (hne : sy ≠ ty) :
    ∃ m', std_copy (sy * w + sx) n (ty * w + tx) m = some m' ∧
      Rep m' w h (fun x y => if y = ty ∧ tx ≤ x ∧ x < tx + n then f (x - tx + sx) sy
        else f x y) := by
  obtain ⟨m', hm', hP⟩ := loop_invariant
    (fun i (t : Matrix) => (t.load (sy * w + sx + i)).bind (fun v => t.store (ty * w + tx + i) v))
    (fun i t => Rep t w h (fun x y => if y = ty ∧ tx ≤ x ∧ x < tx + i then f (x - tx + sx) sy
        else f x y))
    n 0 m (hr.congr (by
      intro x y _ _
      split_ifs <;> first | rfl | (exfalso; omega))) (by
      intro j t _ hj ht
      obtain ⟨t', ht', hr'⟩ := move_rep ht (sx + j) sy (tx + j) ty (by omega) hsy (by omega) hty
      refine ⟨t', ?_, hr'.congr ?_⟩
      · beta_reduce
        rw [Nat.add_assoc, Nat.add_assoc]; exact ht'
      · intro x y' _ _
        beta_reduce
        split_ifs <;> first | rfl | (exfalso; omega) | (congr 1; omega))
  refine ⟨m', hm', hP.congr ?_⟩
  intro x y' _ _
  beta_reduce
  split_ifs <;> first | rfl | (exfalso; omega)

theorem copy_rows_up_rep {m : Matrix} {w h : Nat} {f : Nat → Nat → Nat} (hr : Rep m w h f)
    (hh : h < 4294967296) (d : Vec2Di32) (nr xl sx tx : Nat) (hd : d.y = -(nr : Int))
    (hnr : 0 < nr) (hnr' : nr < h) (hsx : sx + xl ≤ w) (htx : tx + xl ≤ w) :
    ∃ m', loop (copy_rows_step d xl sx tx nr 1) (h - nr) 0 m = some m' ∧
      Rep m' w h (fun x y => if y + nr < h ∧ tx ≤ x ∧ x < tx + xl then
          f (x - tx + sx) (y + nr)
        else f x y) := by
  obtain ⟨m', hm', hP⟩ := loop_invariant (copy_rows_step d xl sx tx nr 1)
    (fun i t => Rep t w h (fun x y => if y < i ∧ tx ≤ x ∧ x < tx + xl then
        f (x - tx + sx) (y + nr) else f x y))
    (h - nr) 0 m (hr.congr (by intro x y _ _; simp)) (by
      intro j t _ hj ht
      have h1 : add32 nr (muli32 1 j) = nr + j := by unfold add32 muli32; omega
      have h2 : addi32 (nr + j) d.y = j := by unfold addi32; omega
      obtain ⟨t', ht', hr'⟩ :=
        std_copy_rep ht sx (nr + j) tx j xl hsx (by omega) htx (by omega) (by omega)
      refine ⟨t', ?_, hr'.congr ?_⟩
      · simp only [copy_rows_step, h1, h2]
        rw [row_begin_rep ht (by omega), row_begin_rep ht (by omega)]
        exact ht'
      · intro x y' _ _
        beta_reduce
        split_ifs <;> first | rfl | (exfalso; omega) | (congr 1; omega))
  refine ⟨m', hm', hP.congr ?_⟩
  intro x y' _ _
  beta_reduce
  split_ifs <;> first | rfl | (exfalso; omega)

theorem copy_rows_down_rep {m : Matrix} {w h : Nat} {f : Nat → Nat → Nat} (hr : Rep m w h f)
    (hh : h < 4294967296) (d : Vec2Di32) (nr xl sx tx : Nat) (hd : d.y = (nr : Int))
    (hnr : 0 < nr) (hnr' : nr < h) (hsx : sx + xl ≤ w) (htx : tx + xl ≤ w) :
    ∃ m', loop (copy_rows_step d xl sx tx (h - nr - 1) (-1)) (h - nr) 0 m = some m' ∧
      Rep m' w h (fun x y => if nr ≤ y ∧ tx ≤ x ∧ x < tx + xl then f (x - tx + sx) (y - nr)
        else f x y) := by
  obtain ⟨m', hm', hP⟩ := loop_invariant (copy_rows_step d xl sx tx (h - nr - 1) (-1))
    (fun i t => Rep t w h (fun x y => if h - i ≤ y ∧ tx ≤ x ∧ x < tx + xl then
        f (x - tx + sx) (y - nr) else f x y))
    (h - nr) 0 m (hr.congr (by
      intro x y _ _
      split_ifs <;> first | rfl | (exfalso; omega))) (by
      intro j t _ hj ht
      have h1 : add32 (h - nr - 1) (muli32 (-1) j) = h - nr - 1 - j := by
        unfold add32 muli32; omega
      have h2 : addi32 (h - nr - 1 - j) d.y = h - 1 - j := by unfold addi32; omega
      obtain ⟨t', ht', hr'⟩ :=
        std_copy_rep ht sx (h - nr - 1 - j) tx (h - 1 - j) xl hsx (by omega) htx (by omega)
          (by omega)
      refine ⟨t', ?_, hr'.congr ?_⟩
      · simp only [copy_rows_step, h1, h2]
        rw [row_begin_rep ht (by omega), row_begin_rep ht (by omega)]
        exact ht'
      · intro x y' _ _
        beta_reduce
        split_ifs <;> first | rfl | (exfalso; omega) | (congr 1; omega))
  refine ⟨m', hm', hP.congr ?_⟩
  intro x y' _ _
  beta_reduce
  split_ifs <;> first | rfl | (exfalso; omega)

/-- Effect of `copy` on the in-grid cells, for a shift smaller than the grid. -/
theorem copy_rep {m : Matrix} {w h : Nat} {f : Nat → Nat → Nat} (hr : Rep m w h f)
    (hw : w < 4294967296) (hh : h < 4294967296) (d : Vec2Di32)
    (hx : d.x.natAbs < w) (hy : d.y.natAbs < h) :
    ∃ m', copy m d = some m' ∧
      Rep m' w h (fun x y => if in_grid w h ((x : Int) - d.x) ((y : Int) - d.y) then
        f ((x : Int) - d.x).toNat ((y : Int) - d.y).toNat else f x y) := by
  have hnc : abs32 d.x = d.x.natAbs := by unfold abs32; omega
  have hnr : abs32 d.y = d.y.natAbs := by unfold abs32; omega
  by_cases hy0 : d.y = 0
  · by_cases hx0 : d.x = 0
    · refine ⟨m, by simp [copy, hx0, hy0, abs32], hr.congr ?_⟩
      intro x y hx' hy'
      simp [in_grid, hx0, hy0, hx', hy']
    · have hnc0 : d.x.natAbs ≠ 0 := by omega
      have hnr0 : d.y.natAbs = 0 := by omega
      by_cases hpos : d.x > 0
      · obtain ⟨m', hm', hr'⟩ := copy_right_rep hr hw (n := d.x.natAbs) (by omega)
        refine ⟨m', by simp [copy, hnc, hnr, hnc0, hnr0, hpos, hm'], hr'.congr ?_⟩
        intro x y hx' hy'
        unfold in_grid
        split_ifs <;> first | rfl | (exfalso; omega) | (apply congrArg₂ f <;> omega)
      · obtain ⟨m', hm', hr'⟩ := copy_left_rep hr hw (n := d.x.natAbs) (by omega)
        refine ⟨m', by simp [copy, hnc, hnr, hnc0, hnr0, hpos, hm'], hr'.congr ?_⟩
        intro x y hx' hy'
        unfold in_grid
        split_ifs <;> first | rfl | (exfalso; omega) | (apply congrArg₂ f <;> omega)
  · have hnr0 : d.y.natAbs ≠ 0 := by omega
    have hxl : sub32 m.width d.x.natAbs = w - d.x.natAbs := by
      rw [hr.1]; unfold sub32; omega
    have hyl : sub32 m.height d.y.natAbs = h - d.y.natAbs := by
      rw [hr.2.1]; unfold sub32; omega
    have hyl1 : sub32 (h - d.y.natAbs) 1 = h - d.y.natAbs - 1 := by unfold sub32; omega
    by_cases hup : d.y < 0
    · by_cases hpos : d.x > 0
      · have hdst : addi32 0 d.x = d.x.natAbs := by unfold addi32; omega
        obtain ⟨m', hm', hr'⟩ :=
          copy_rows_up_rep hr hh d d.y.natAbs (w - d.x.natAbs) 0 d.x.natAbs (by omega) (by omega)
            hy
          (by omega) (by omega)
        refine ⟨m', by simp [copy, hnc, hnr, hnr0, hpos, hup, hxl, hyl, hdst, hm'],
          hr'.congr ?_⟩
        intro x y hx' hy'
        unfold in_grid
        split_ifs <;> first | rfl | (exfalso; omega) | (apply congrArg₂ f <;> omega)
      · have hdst : addi32 d.x.natAbs d.x = 0 := by unfold addi32; omega
        obtain ⟨m', hm', hr'⟩ :=
          copy_rows_up_rep hr hh d d.y.natAbs (w - d.x.natAbs) d.x.natAbs 0 (by omega) (by omega)
            hy
          (by omega) (by omega)
        refine ⟨m', by simp [copy, hnc, hnr, hnr0, hpos, hup, hxl, hyl, hdst, hm'],
          hr'.congr ?_⟩
        intro x y hx' hy'
        unfold in_grid
        split_ifs <;> first | rfl | (exfalso; omega) | (apply congrArg₂ f <;> omega)
    · by_cases hpos : d.x > 0
      · have hdst : addi32 0 d.x = d.x.natAbs := by unfold addi32; omega
        obtain ⟨m', hm', hr'⟩ :=
          copy_rows_down_rep hr hh d d.y.natAbs (w - d.x.natAbs) 0 d.x.natAbs (by omega)
            (by omega) hy
          (by omega) (by omega)
        refine ⟨m', by simp [copy, hnc, hnr, hnr0, hpos, hup, hxl, hyl, hyl1, hdst, hm'],
          hr'.congr ?_⟩
        intro x y hx' hy'
        unfold in_grid
        split_ifs <;> first | rfl | (exfalso; omega) | (apply congrArg₂ f <;> omega)
      · have hdst : addi32 d.x.natAbs d.x = 0 := by unfold addi32; omega
        obtain ⟨m', hm', hr'⟩ :=
          copy_rows_down_rep hr hh d d.y.natAbs (w - d.x.natAbs) d.x.natAbs 0 (by omega)
            (by omega) hy
          (by omega) (by omega)
        refine ⟨m', by simp [copy, hnc, hnr, hnr0, hpos, hup, hxl, hyl, hyl1, hdst, hm'],
          hr'.congr ?_⟩
        intro x y hx' hy'
        unfold in_grid
        split_ifs <;> first | rfl | (exfalso; omega) | (apply congrArg₂ f <;> omega)

/-! ## The shifter -/

/-- C1: for a shift `(dx, dy)` with `|dx| < width` and `|dy| < height`, `copy` returns, keeps the
dimensions, and afterwards the cell `(x+dx, y+dy)` holds what the cell `(x, y)` held before, for
every in-grid `(x, y)` whose image `(x+dx, y+dy)` is in the grid; the zero shift leaves the
matrix as it was.  The statement covers the horizontal, vertical and diagonal branches. -/
theorem copy_moves_cells (mat : Matrix) (direction : Vec2Di32)
    (hw : mat.width < 4294967296) (hh : mat.height < 4294967296)
    (hdx : direction.x.natAbs < mat.width) (hdy : direction.y.natAbs < mat.height) :
    ∃ mat', copy mat direction = some mat' ∧
      mat'.width = mat.width ∧ mat'.height = mat.height ∧
      (∀ x y : Nat, x < mat.width → y < mat.height →
        in_grid mat.width mat.height ((x : Int) + direction.x) ((y : Int) + direction.y) →
        mat'.cell ((x : Int) + direction.x).toNat ((y : Int) + direction.y).toNat
          = mat.cell x y) ∧
      (direction.x = 0 ∧ direction.y = 0 → mat' = mat) := by
  obtain ⟨mat', hc, hr⟩ := copy_rep (Rep.self mat) hw hh direction hdx hdy
  refine ⟨mat', hc, hr.1, hr.2.1, ?_, ?_⟩
  · intro x y hx hy hin
    unfold in_grid at hin
    have hX : ((x : Int) + direction.x).toNat < mat.width := by omega
    have hY : ((y : Int) + direction.y).toNat < mat.height := by omega
    rw [hr.2.2 _ _ hX hY]
    have h1 : ((((x : Int) + direction.x).toNat : Nat) : Int) - direction.x = x := by omega
    have h2 : ((((y : Int) + direction.y).toNat : Nat) : Int) - direction.y = y := by omega
    have hin' : in_grid mat.width mat.height
        (((((x : Int) + direction.x).toNat : Nat) : Int) - direction.x)
        (((((y : Int) + direction.y).toNat : Nat) : Int) - direction.y) := by
      rw [h1, h2]; unfold in_grid; omega
    beta_reduce
    rw [if_pos hin', h1, h2]
    simp
  · rintro ⟨h0x, h0y⟩
    have : copy mat direction = some mat := by simp [copy, abs32, h0x, h0y]
    rw [this] at hc
    exact (Option.some.inj hc).symm

/-- Witness for C1: the shift `(1, -1)` on the 4 by 3 sample grid. -/
theorem copy_moves_cells_witness :
    ∃ mat', copy sampleGrid ⟨1, -1⟩ = some mat' ∧
      mat'.width = sampleGrid.width ∧ mat'.height = sampleGrid.height ∧
      (∀ x y : Nat, x < sampleGrid.width → y < sampleGrid.height →
        in_grid sampleGrid.width sampleGrid.height ((x : Int) + 1) ((y : Int) + -1) →
        mat'.cell ((x : Int) + 1).toNat ((y : Int) + -1).toNat = sampleGrid.cell x y) ∧
      ((1 : Int) = 0 ∧ (-1 : Int) = 0 → mat' = sampleGrid) :=
  copy_moves_cells sampleGrid ⟨1, -1⟩ (by decide) (by decide) (by decide) (by decide)

/-- C3: for a shift `(dx, dy)` with `|dx| < width` and `|dy| < height`, `copy` leaves unchanged
every in-grid cell `(x', y')` whose source `(x'-dx, y'-dy)` lies outside the grid. -/
theorem copy_keeps_exposed_cells (mat : Matrix) (direction : Vec2Di32)
    (hw : mat.width < 4294967296) (hh : mat.height < 4294967296)
    (hdx : direction.x.natAbs < mat.width) (hdy : direction.y.natAbs < mat.height) :
    ∃ mat', copy mat direction = some mat' ∧
      ∀ x' y' : Nat, x' < mat.width → y' < mat.height →
        ¬ in_grid mat.width mat.height ((x' : Int) - direction.x) ((y' : Int) - direction.y) →
        mat'.cell x' y' = mat.cell x' y' := by
  obtain ⟨mat', hc, hr⟩ := copy_rep (Rep.self mat) hw hh direction hdx hdy
  refine ⟨mat', hc, ?_⟩
  intro x' y' hx hy hout
  rw [hr.2.2 _ _ hx hy]
  beta_reduce
  rw [if_neg hout]

/-- Witness for C3: the shift `(-2, 1)` on the 4 by 3 sample grid. -/
theorem copy_keeps_exposed_cells_witness :
    ∃ mat', copy sampleGrid ⟨-2, 1⟩ = some mat' ∧
      ∀ x' y' : Nat, x' < sampleGrid.width → y' < sampleGrid.height →
        ¬ in_grid sampleGrid.width sampleGrid.height ((x' : Int) - -2) ((y' : Int) - 1) →
        mat'.cell x' y' = sampleGrid.cell x' y' :=
  copy_keeps_exposed_cells sampleGrid ⟨-2, 1⟩ (by decide) (by decide) (by decide) (by decide)

/-! ## The evaluator on a range -/

theorem do_row_rep {R : Type} (env : Env R) (state : AppState R) {m : Matrix} {w h : Nat}
    {f : Nat → Nat → Nat} (hr : Rep m w h f) (r : Range2Du32) (hx : r.x_end ≤ w)
    {y : Nat} (hy : y < h) :
    ∃ m', do_row env state r y m = some m' ∧
      Rep m' w h (fun x y' => if y' = y ∧ r.x_begin ≤ x ∧ x < r.x_end then
        escape_value env state x y' else f x y') := by
  obtain ⟨m', hm', hP⟩ := loop_invariant
    (do_x env state (env.add (min_im env state) (env.mul (env.ofU32 y) (im_step env state)))
      (y * w))
    (fun i t => Rep t w h (fun x y' => if y' = y ∧ r.x_begin ≤ x ∧ x < i then
        escape_value env state x y' else f x y'))
    (r.x_end - r.x_begin) r.x_begin m (hr.congr (by
      intro x y' _ _
      split_ifs <;> first | (exfalso; omega) | (with_reducible rfl))) (by
      intro j t _ hj ht
      obtain ⟨t', ht', hr'⟩ := store_rep ht (x := j) (y := y) (by omega) hy
        (escape_value env state j y)
      refine ⟨t', ht', hr'.congr ?_⟩
      intro x y' _ _
      beta_reduce
      split_ifs with h1 h2 h3 <;>
        first | (exfalso; omega) | (with_reducible rfl) | (obtain ⟨rfl, rfl⟩ := h1; rfl))
  refine ⟨m', ?_, hP.congr ?_⟩
  · simp only [do_row, for_each_range]
    rw [row_begin_rep hr hy]
    exact hm'
  · intro x y' _ _
    beta_reduce
    split_ifs <;> first | (exfalso; omega) | (with_reducible rfl)

/-- Effect of `do_mandelbrot` on the in-grid cells, for a range that ends inside the grid. -/
theorem do_mandelbrot_rep {R : Type} (env : Env R) (state : AppState R) {m : Matrix}
    {w h : Nat} {f : Nat → Nat → Nat} (hr : Rep m w h f) (r : Range2Du32) (hx : r.x_end ≤ w)
    (hy : r.y_end ≤ h) :
    ∃ m', do_mandelbrot env state r m = some m' ∧
      Rep m' w h (fun x y => if r.contains x y then escape_value env state x y else f x y) := by
  obtain ⟨m', hm', hP⟩ := loop_invariant (do_row env state r)
    (fun i t => Rep t w h (fun x y =>
        if (r.y_begin ≤ y ∧ y < i) ∧ r.x_begin ≤ x ∧ x < r.x_end
        then escape_value env state x y else f x y))
    (r.y_end - r.y_begin) r.y_begin m (hr.congr (by
      intro x y _ _
      split_ifs <;> first | (exfalso; omega) | (with_reducible rfl))) (by
      intro j t _ hj ht
      obtain ⟨t', ht', hr'⟩ := do_row_rep env state ht r hx (y := j) (by omega)
      refine ⟨t', ht', hr'.congr ?_⟩
      intro x y' _ _
      beta_reduce
      split_ifs <;> first | (exfalso; omega) | (with_reducible rfl))
  refine ⟨m', hm', hP.congr ?_⟩
  intro x y _ _
  simp only [Range2Du32.contains, Bool.and_eq_true, decide_eq_true_eq]
  split_ifs <;> first | (exfalso; omega) | (with_reducible rfl)

/-! ## The ranges selected by `mandelbrot` -/

theorem sub32_sub32_one {w n : Nat} (hw : w < 4294967296) (hn : n < w) :
    sub32 (sub32 w 1) n = w - 1 - n := by
  unfold sub32; omega

theorem abs32_eq {i : Int} {w : Nat} (hw : w < 4294967296) (hi : i.natAbs < w) :
    abs32 i = i.natAbs := by
  unfold abs32; omega

/-- The ranges selected for a shift smaller than the grid, by the signs of its components. -/
theorem mandelbrot_ranges_eq (w h : Nat) (d : Vec2Di32) (hw : w < 4294967296)
    (hh : h < 4294967296) (hdx : d.x.natAbs < w) (hdy : d.y.natAbs < h) :
    mandelbrot_ranges w h d =
      if d.x = 0 ∧ d.y = 0 then [⟨0, w, 0, h⟩]
      else if d.x = 0 then
        (if 0 < d.y then [⟨0, w, 0, d.y.natAbs⟩] else [⟨0, w, h - 1 - d.y.natAbs, h⟩])
      else if d.y = 0 then
        (if 0 < d.x then [⟨0, d.x.natAbs, 0, h⟩] else [⟨w - 1 - d.x.natAbs, w, 0, h⟩])
      else
        [ (if 0 < d.y then ⟨0, w, 0, d.y.natAbs⟩ else ⟨0, w, h - 1 - d.y.natAbs, h⟩),
          ⟨(if 0 < d.x then 0 else w - 1 - d.x.natAbs), (if 0 < d.x then d.x.natAbs else w),
           (if 0 < d.y then d.y.natAbs else 0),
           (if 0 < d.y then h else h - 1 - d.y.natAbs)⟩ ] := by
  have hx0 : d.x.natAbs = 0 ↔ d.x = 0 := by omega
  have hy0 : d.y.natAbs = 0 ↔ d.y = 0 := by omega
  simp only [mandelbrot_ranges, get_range, abs32_eq hw hdx, abs32_eq hh hdy,
    sub32_sub32_one hw hdx, sub32_sub32_one hh hdy, hx0, hy0]
  by_cases h1 : d.x = 0 <;> by_cases h2 : d.y = 0 <;> by_cases h3 : 0 < d.x <;>
    by_cases h4 : 0 < d.y <;> simp [h1, h2, h3, h4]

/-- The cells `mandelbrot` evaluates for a shift smaller than the grid. -/
theorem evaluated_iff (w h : Nat) (d : Vec2Di32) (hw : w < 4294967296)
    (hh : h < 4294967296) (hdx : d.x.natAbs < w) (hdy : d.y.natAbs < h) (x y : Nat) :
    evaluated w h d x y = true ↔
      x < w ∧ y < h ∧
        ((d.x = 0 ∧ d.y = 0) ∨ (0 < d.y ∧ (y : Int) < d.y) ∨
          (d.y < 0 ∧ (h : Int) - 1 + d.y ≤ y) ∨ (0 < d.x ∧ (x : Int) < d.x) ∨
          (d.x < 0 ∧ (w : Int) - 1 + d.x ≤ x)) := by
  unfold evaluated
  rw [mandelbrot_ranges_eq w h d hw hh hdx hdy]
  by_cases h1 : d.x = 0 <;> by_cases h2 : d.y = 0 <;> by_cases h3 : 0 < d.x <;>
    by_cases h4 : 0 < d.y <;>
    simp [h1, h2, h3, h4, Range2Du32.contains] <;> omega

/-- Every range selected for a shift smaller than the grid is well formed and inside the grid. -/
theorem mandelbrot_ranges_inside (w h : Nat) (d : Vec2Di32) (hw : w < 4294967296)
    (hh : h < 4294967296) (hdx : d.x.natAbs < w) (hdy : d.y.natAbs < h) :
    ∀ r ∈ mandelbrot_ranges w h d,
      r.x_begin ≤ r.x_end ∧ r.x_end ≤ w ∧ r.y_begin ≤ r.y_end ∧ r.y_end ≤ h := by
  rw [mandelbrot_ranges_eq w h d hw hh hdx hdy]
  by_cases h1 : d.x = 0 <;> by_cases h2 : d.y = 0 <;> by_cases h3 : 0 < d.x <;>
    by_cases h4 : 0 < d.y <;>
    simp [h1, h2, h3, h4] <;> omega

theorem do_ranges_rep {R : Type} (env : Env R) (state : AppState R) {w h : Nat} :
    ∀ (rs : List Range2Du32) (m : Matrix) (f : Nat → Nat → Nat), Rep m w h f →
      (∀ r ∈ rs, r.x_end ≤ w ∧ r.y_end ≤ h) →
      ∃ m', do_ranges env state rs m = some m' ∧
        Rep m' w h (fun x y => if rs.any (fun r => r.contains x y) then
          escape_value env state x y else f x y) := by
  intro rs
  induction rs with
  | nil => intro m f hr _; exact ⟨m, rfl, hr.congr (by intro x y _ _; simp)⟩
  | cons r rs ih =>
    intro m f hr hin
    obtain ⟨m1, hm1, hr1⟩ := do_mandelbrot_rep env state hr r
      (hin r (List.mem_cons_self r rs)).1 (hin r (List.mem_cons_self r rs)).2
    obtain ⟨m2, hm2, hr2⟩ := ih m1 _ hr1 (fun r' hr' => hin r' (List.mem_cons_of_mem r hr'))
    refine ⟨m2, by simp [do_ranges, hm1, hm2], hr2.congr ?_⟩
    intro x y _ _
    beta_reduce
    rw [List.any_cons]
    cases hc : r.contains x y <;> cases ha : rs.any (fun r => r.contains x y) <;> simp

/-- Effect of `mandelbrot` on the in-grid cells, for a shift smaller than the grid. -/
theorem mandelbrot_rep {R : Type} (env : Env R) (state : AppState R) {w h : Nat}
    {f : Nat → Nat → Nat} (hr : Rep state.iterations w h f) (hw : w < 4294967296)
    (hh : h < 4294967296) (hdx : state.pixel_shift.x.natAbs < w)
    (hdy : state.pixel_shift.y.natAbs < h) :
    ∃ m', mandelbrot env state = some { state with iterations := m' } ∧
      Rep m' w h (fun x y => if evaluated w h state.pixel_shift x y then
        escape_value env state x y else f x y) := by
  obtain ⟨m', hm', hr'⟩ := do_ranges_rep env state
    (mandelbrot_ranges w h state.pixel_shift) state.iterations f hr
    (fun r hmem =>
      ⟨(mandelbrot_ranges_inside w h _ hw hh hdx hdy r hmem).2.1,
       (mandelbrot_ranges_inside w h _ hw hh hdx hdy r hmem).2.2.2⟩)
  refine ⟨m', ?_, hr'⟩
  simp [mandelbrot, hr.1, hr.2.1, hm']

/-- The evaluator's value for a cell does not depend on the buffer contents. -/
theorem escape_value_congr {R : Type} (env : Env R) (s t : AppState R)
    (hw : s.iterations.width = t.iterations.width)
    (hh : s.iterations.height = t.iterations.height) (hp : s.screen_pos = t.screen_pos)
    (hm : s.max_iter = t.max_iter) (x y : Nat) :
    escape_value env s x y = escape_value env t x y := by
  simp only [escape_value, min_im, min_re, im_step, re_step, hw, hh, hp, hm]

/-! ## Shift followed by fill -/

/-- C2: let `E x y` be the evaluator's value for the cell `(x, y)` (`escape_value`).  For a
shift `(dx, dy)` with `|dx| < width` and `|dy| < height`, if the grid holds
`old (x, y) = E (x+dx) (y+dy)` at every in-grid `(x, y)` whose image is in the grid, then
`copy` followed by `mandelbrot` returns, and every cell `(x, y)` of the resulting grid holds
`E x y`; a zero-shift pass of `mandelbrot`, from any buffer contents, produces the same cells. -/
theorem shift_then_fill_eq_recompute {R : Type} (env : Env R) (state : AppState R)
    (hw : state.iterations.width < 4294967296) (hh : state.iterations.height < 4294967296)
    (hdx : state.pixel_shift.x.natAbs < state.iterations.width)
    (hdy : state.pixel_shift.y.natAbs < state.iterations.height)
    (hold : ∀ x y : Nat, x < state.iterations.width → y < state.iterations.height →
      in_grid state.iterations.width state.iterations.height
        ((x : Int) + state.pixel_shift.x) ((y : Int) + state.pixel_shift.y) →
      state.iterations.cell x y =
        escape_value env state ((x : Int) + state.pixel_shift.x).toNat
          ((y : Int) + state.pixel_shift.y).toNat) :
    ∃ m', render_iterations env state = some { state with iterations := m' } ∧
      m'.width = state.iterations.width ∧ m'.height = state.iterations.height ∧
      (∀ x y : Nat, x < state.iterations.width → y < state.iterations.height →
        m'.cell x y = escape_value env state x y) ∧
      ∀ stale : Nat → Nat, ∃ m0,
        mandelbrot env { state with iterations := { state.iterations with data := stale },
                                    pixel_shift := ⟨0, 0⟩ }
          = some { state with iterations := m0, pixel_shift := ⟨0, 0⟩ } ∧
        m0.width = state.iterations.width ∧ m0.height = state.iterations.height ∧
        ∀ x y : Nat, x < state.iterations.width → y < state.iterations.height →
          m'.cell x y = m0.cell x y := by
  obtain ⟨m1, hc, hr1⟩ := copy_rep (Rep.self state.iterations) hw hh state.pixel_shift hdx hdy
  obtain ⟨m2, hm2, hr2⟩ := mandelbrot_rep env { state with iterations := m1 } hr1 hw hh hdx hdy
  have hE : ∀ x y, escape_value env { state with iterations := m1 } x y
      = escape_value env state x y :=
    fun x y =>
      escape_value_congr env { state with iterations := m1 } state hr1.1 hr1.2.1 rfl rfl x y
  have hcells : ∀ x y : Nat, x < state.iterations.width → y < state.iterations.height →
      m2.cell x y = escape_value env state x y := by
    intro x y hx hy
    rw [hr2.2.2 x y hx hy]
    beta_reduce
    by_cases hev : evaluated state.iterations.width state.iterations.height
        state.pixel_shift x y = true
    · simp only [hev, if_true]; exact hE x y
    · have hnot := hev
      rw [evaluated_iff _ _ _ hw hh hdx hdy] at hnot
      have hin : in_grid state.iterations.width state.iterations.height
          ((x : Int) - state.pixel_shift.x) ((y : Int) - state.pixel_shift.y) := by
        unfold in_grid; omega
      rw [if_neg hev, if_pos hin]
      clear hnot hev
      unfold in_grid at hin
      have h := hold ((x : Int) - state.pixel_shift.x).toNat
        ((y : Int) - state.pixel_shift.y).toNat (by omega) (by omega)
        (by unfold in_grid; omega)
      rw [h]
      apply congrArg₂ (escape_value env state) <;> omega
  refine ⟨m2, ?_, hr2.1, hr2.2.1, hcells, ?_⟩
  · simp [render_iterations, hc]; exact hm2
  · intro stale
    have hr0 : Rep ({ state.iterations with data := stale } : Matrix) state.iterations.width
        state.iterations.height (fun x y => stale (y * state.iterations.width + x)) :=
      ⟨rfl, rfl, fun _ _ _ _ => rfl⟩
    have h0x : (0 : Int).natAbs < state.iterations.width := by
      have : (0 : Int).natAbs = 0 := rfl
      omega
    have h0y : (0 : Int).natAbs < state.iterations.height := by
      have : (0 : Int).natAbs = 0 := rfl
      omega
    obtain ⟨m0, hm0, hrep0⟩ := mandelbrot_rep env
      { state with iterations := { state.iterations with data := stale }, pixel_shift := ⟨0, 0⟩ }
      hr0 hw hh h0x h0y
    refine ⟨m0, hm0, hrep0.1, hrep0.2.1, ?_⟩
    intro x y hx hy
    rw [hcells x y hx hy, hrep0.2.2 x y hx hy]
    beta_reduce
    have hev : evaluated state.iterations.width state.iterations.height ⟨0, 0⟩ x y = true := by
      rw [evaluated_iff _ _ _ hw hh h0x h0y]
      simp [hx, hy]
    simp only [hev, if_true]
    exact (escape_value_congr env
      { state with iterations := { state.iterations with data := stale }, pixel_shift := ⟨0, 0⟩ }
      state rfl rfl rfl rfl x y).symm

/-- Witness for C2: the 4 by 3 grid filled with `4`, shift `(1, -1)`, bound `5`, integer
arithmetic with every sample point at the origin (the evaluator's value is `4` everywhere). -/
theorem shift_then_fill_eq_recompute_witness :
    ∃ m', render_iterations intEnv (sampleState filledGrid ⟨1, -1⟩ 5)
        = some { sampleState filledGrid ⟨1, -1⟩ 5 with iterations := m' } ∧
      m'.width = 4 ∧ m'.height = 3 ∧
      (∀ x y : Nat, x < 4 → y < 3 →
        m'.cell x y = escape_value intEnv (sampleState filledGrid ⟨1, -1⟩ 5) x y) ∧
      ∀ stale : Nat → Nat, ∃ m0,
        mandelbrot intEnv { sampleState filledGrid ⟨1, -1⟩ 5 with
            iterations := { filledGrid with data := stale }, pixel_shift := ⟨0, 0⟩ }
          = some { sampleState filledGrid ⟨1, -1⟩ 5 with
              iterations := m0, pixel_shift := ⟨0, 0⟩ } ∧
        m0.width = 4 ∧ m0.height = 3 ∧
        ∀ x y : Nat, x < 4 → y < 3 → m'.cell x y = m0.cell x y :=
  shift_then_fill_eq_recompute intEnv (sampleState filledGrid ⟨1, -1⟩ 5) (by decide)
    (by decide) (by decide) (by decide)
    (fun x y hx hy _ => by
      have hx' : x < 4 := hx
      have hy' : y < 3 := hy
      interval_cases x <;> interval_cases y <;> decide)

/-! ## The exposed region -/

/-- C4 (the code at the failing input): on the 4 by 3 sample grid with shift `(-1, 0)` the
single range passed to `do_mandelbrot` is columns `2..3` of every row, so the cell `(2, 0)` is
evaluated although it is the destination of the in-grid source cell `(3, 0)`, which `copy` has
just moved there; the complement of the shifted rectangle is column `3` alone. -/
theorem mandelbrot_reevaluates_moved_cell :
    mandelbrot_ranges 4 3 ⟨-1, 0⟩ = [{ x_begin := 2, x_end := 4, y_begin := 0, y_end := 3 }] ∧
      evaluated 4 3 ⟨-1, 0⟩ 2 0 = true ∧
      in_grid 4 3 ((2 : Int) - (-1)) ((0 : Int) - 0) ∧
      (∃ mat', copy sampleGrid ⟨-1, 0⟩ = some mat' ∧
        mat'.cell 2 0 = sampleGrid.cell 3 0) := by
  refine ⟨by decide, by decide, by decide, ?_⟩
  obtain ⟨mat', hc, hr⟩ := copy_rep (Rep.self sampleGrid) (by decide) (by decide) ⟨-1, 0⟩
    (by decide) (by decide)
  exact ⟨mat', hc, hr.2.2 2 0 (by decide) (by decide)⟩

/-- C5 (counterexample): on the one-row grid of width 100 whose cell in column `x` holds `x`,
after `copy` with shift `(3, 0)` the cell in column `0` does not hold the old content of
column `3` (it keeps its own), and `mandelbrot` evaluates column `0` and does not evaluate
column `97`. -/
theorem shift_three_counterexample :
    ∃ mat', copy wideGrid ⟨3, 0⟩ = some mat' ∧
      mat'.cell 0 0 ≠ wideGrid.cell (0 + 3) 0 ∧ mat'.cell 0 0 = wideGrid.cell 0 0 ∧
      evaluated 100 1 ⟨3, 0⟩ 0 0 = true ∧ evaluated 100 1 ⟨3, 0⟩ 97 0 = false := by
  obtain ⟨mat', hc, hr⟩ := copy_rep (Rep.self wideGrid) (by decide) (by decide) ⟨3, 0⟩
    (by decide) (by decide)
  have h0 : mat'.cell 0 0 = wideGrid.cell 0 0 := hr.2.2 0 0 (by decide) (by decide)
  refine ⟨mat', hc, ?_, h0, by decide, by decide⟩
  rw [h0]
  decide

/-- C5 (amended): for a grid of width 100 and shift `(3, 0)`, `copy` returns and the new
columns `3..99` hold the old columns `0..96` (`new (x+3, y) = old (x, y)` for `x ≤ 96`, every
row `y`), and `mandelbrot` evaluates the columns `0..2` of every row and only those. -/
theorem shift_three_moves_right (mat : Matrix) (hw : mat.width = 100) :
    ∃ mat', copy mat ⟨3, 0⟩ = some mat' ∧
      (∀ x y : Nat, x ≤ 96 → y < mat.height → mat'.cell (x + 3) y = mat.cell x y) ∧
      (∀ x y : Nat, evaluated mat.width mat.height ⟨3, 0⟩ x y = true ↔
        x ≤ 2 ∧ y < mat.height) := by
  obtain ⟨mat', hc, hr⟩ := copy_right_rep (Rep.self mat) (n := 3) (by omega) (by omega)
  refine ⟨mat', ?_, ?_, ?_⟩
  · have h3 : abs32 3 = 3 := by decide
    have h0 : abs32 0 = 0 := by decide
    simp [copy, h3, h0, hc]
  · intro x y hx hy
    rw [hr.2.2 (x + 3) y (by omega) hy]
    simp
  · intro x y
    have h3 : abs32 3 = 3 := by decide
    have h0 : abs32 0 = 0 := by decide
    simp [evaluated, mandelbrot_ranges, get_range, Range2Du32.contains, h3, h0]
    omega

/-- Witness for C5 (amended): the one-row grid of width 100. -/
theorem shift_three_moves_right_witness :
    ∃ mat', copy wideGrid ⟨3, 0⟩ = some mat' ∧
      (∀ x y : Nat, x ≤ 96 → y < wideGrid.height →
        mat'.cell (x + 3) y = wideGrid.cell x y) ∧
      (∀ x y : Nat, evaluated wideGrid.width wideGrid.height ⟨3, 0⟩ x y = true ↔
        x ≤ 2 ∧ y < wideGrid.height) :=
  shift_three_moves_right wideGrid rfl

/-- C6: for the zero shift, `copy` returns the matrix as it is, `mandelbrot` evaluates every
cell of the grid, and after `copy` and `mandelbrot` every cell `(x, y)` with `x < width` and
`y < height` holds the evaluator's value for `(x, y)`, whatever the grid held before. -/
theorem zero_shift_full_pass {R : Type} (env : Env R) (state : AppState R)
    (hz : state.pixel_shift = ⟨0, 0⟩) :
    copy state.iterations state.pixel_shift = some state.iterations ∧
      (∀ x y : Nat, x < state.iterations.width → y < state.iterations.height →
        evaluated state.iterations.width state.iterations.height state.pixel_shift x y
          = true) ∧
      ∃ m', render_iterations env state = some { state with iterations := m' } ∧
        m'.width = state.iterations.width ∧ m'.height = state.iterations.height ∧
        ∀ x y : Nat, x < state.iterations.width → y < state.iterations.height →
          m'.cell x y = escape_value env state x y := by
  have h0 : abs32 0 = 0 := by decide
  have hcopy : copy state.iterations state.pixel_shift = some state.iterations := by
    simp [copy, hz, h0]
  have hranges : mandelbrot_ranges state.iterations.width state.iterations.height
      state.pixel_shift = [get_range state.iterations.width state.iterations.height] := by
    simp [mandelbrot_ranges, hz, h0]
  have hev : ∀ x y : Nat, x < state.iterations.width → y < state.iterations.height →
      evaluated state.iterations.width state.iterations.height state.pixel_shift x y
        = true := by
    intro x y hx hy
    simp [evaluated, hranges, get_range, Range2Du32.contains, hx, hy]
  obtain ⟨m', hm', hr'⟩ := do_ranges_rep env state
    [get_range state.iterations.width state.iterations.height] state.iterations _
    (Rep.self state.iterations) (by simp [get_range])
  refine ⟨hcopy, hev, m', ?_, hr'.1, hr'.2.1, ?_⟩
  · simp [render_iterations, hcopy, mandelbrot, hranges, hm']
  · intro x y hx hy
    rw [hr'.2.2 x y hx hy]
    simp [get_range, Range2Du32.contains, hx, hy]

/-- Witness for C6: the 4 by 3 sample grid with the zero shift and bound `5`. -/
theorem zero_shift_full_pass_witness :
    copy sampleGrid ⟨0, 0⟩ = some sampleGrid ∧
      (∀ x y : Nat, x < 4 → y < 3 → evaluated 4 3 ⟨0, 0⟩ x y = true) ∧
      ∃ m', render_iterations intEnv (sampleState sampleGrid ⟨0, 0⟩ 5)
          = some { sampleState sampleGrid ⟨0, 0⟩ 5 with iterations := m' } ∧
        m'.width = 4 ∧ m'.height = 3 ∧
        ∀ x y : Nat, x < 4 → y < 3 →
          m'.cell x y = escape_value intEnv (sampleState sampleGrid ⟨0, 0⟩ 5) x y :=
  zero_shift_full_pass intEnv (sampleState sampleGrid ⟨0, 0⟩ 5) rfl

/-- C7 (the code at the failing input): on the 4 by 3 sample grid with shift `(0, 4)`, whose
vertical magnitude exceeds the height, `copy` computes `y_len = 3 - 4` wrapped to
`4294967295`, asks `row_begin` for row `4294967294` and faults on `assert (y < height)`;
`copy` followed by `mandelbrot` therefore produces no grid.  With shift `(5, 0)` the first
load of `copy_right` is outside the buffer. -/
theorem oversized_shift_faults {R : Type} (env : Env R) (pos : Point2Dr64 R)
    (max_iter rgb_option : Nat) :
    sub32 sampleGrid.height (abs32 4) = 4294967295 ∧
      sampleGrid.row_begin 4294967294 = none ∧
      render_iterations env
        { iterations := sampleGrid, screen_pos := pos, pixel_shift := ⟨0, 4⟩,
          max_iter := max_iter, rgb_option := rgb_option } = none ∧
      render_iterations env
        { iterations := sampleGrid, screen_pos := pos, pixel_shift := ⟨5, 0⟩,
          max_iter := max_iter, rgb_option := rgb_option } = none := by
  have h1 : copy sampleGrid ⟨0, 4⟩ = none :=
    Option.isNone_iff_eq_none.mp (by decide)
  have h2 : copy sampleGrid ⟨5, 0⟩ = none :=
    Option.isNone_iff_eq_none.mp (by decide)
  refine ⟨by decide, by decide, ?_, ?_⟩
  · simp [render_iterations, h1]
  · simp [render_iterations, h2]

/-! ## The escape-time loop -/

theorem orbit_iter {R : Type} (env : Env R) (cr ci : R) :
    ∀ k, k < 4294967296 → (orbit env cr ci k).iter = k := by
  intro k
  induction k with
  | zero => intro _; rfl
  | succ k ih =>
    intro hk
    show add32 (orbit env cr ci k).iter 1 = k + 1
    rw [ih (by omega)]
    unfold add32; omega

/-- The loop of `do_x` started after `j` body executions with `max_iter - j` executions left:
it exits, its counter is at most `max_iter`, and the counter reaches `max_iter` exactly when
every escape test from `j` on passes. -/
theorem do_x_while_orbit {R : Type} (env : Env R) (cr ci : R) (max_iter : Nat)
    (hm : max_iter < 4294967296) :
    ∀ fuel j, j + fuel = max_iter →
      do_x_cond env max_iter (do_x_while env cr ci max_iter fuel (orbit env cr ci j)) = false ∧
      j ≤ (do_x_while env cr ci max_iter fuel (orbit env cr ci j)).iter ∧
      (do_x_while env cr ci max_iter fuel (orbit env cr ci j)).iter ≤ max_iter ∧
      ((do_x_while env cr ci max_iter fuel (orbit env cr ci j)).iter = max_iter ↔
        ∀ k, j ≤ k → k < max_iter → (orbit env cr ci k).bounded env = true) := by
  intro fuel
  induction fuel with
  | zero =>
    intro j hj
    have hi : (orbit env cr ci j).iter = j := orbit_iter env cr ci j (by omega)
    refine ⟨?_, ?_, ?_, ?_⟩
    · simp [do_x_while, do_x_cond, hi]; omega
    · simp [do_x_while, hi]
    · simp [do_x_while, hi]; omega
    · simp only [do_x_while, hi]
      constructor
      · intro _ k h1 h2; omega
      · intro _; omega
  | succ fuel ih =>
    intro j hj
    have hi : (orbit env cr ci j).iter = j := orbit_iter env cr ci j (by omega)
    by_cases hb : (orbit env cr ci j).bounded env = true
    · have hc : do_x_cond env max_iter (orbit env cr ci j) = true := by
        simp [do_x_cond, hi, hb]; omega
      have hstep : do_x_while env cr ci max_iter (fuel + 1) (orbit env cr ci j)
          = do_x_while env cr ci max_iter fuel (orbit env cr ci (j + 1)) := by
        simp [do_x_while, hc, orbit]
      rw [hstep]
      obtain ⟨h1, h2, h3, h4⟩ := ih (j + 1) (by omega)
      refine ⟨h1, by omega, h3, ?_⟩
      rw [h4]
      constructor
      · intro h k hk1 hk2
        by_cases hkj : k = j
        · subst hkj; exact hb
        · exact h k (by omega) hk2
      · intro h k hk1 hk2
        exact h k (by omega) hk2
    · have hc : do_x_cond env max_iter (orbit env cr ci j) = false := by
        simp [do_x_cond, hb]
      have hstep : do_x_while env cr ci max_iter (fuel + 1) (orbit env cr ci j)
          = orbit env cr ci j := by
        simp [do_x_while, hc]
      rw [hstep]
      refine ⟨hc, by omega, by omega, ?_⟩
      rw [hi]
      constructor
      · intro h; omega
      · intro h; exact absurd (h j (Nat.le_refl j) (by omega)) hb

/-- C8 (the code at the failing input): with `max_iter = 0` the loop of `do_x` does not run,
`--iter` wraps the counter `0` to `4294967295`, and that is the value stored for every cell,
which is not in `[0, max_iter]`. -/
theorem zero_max_iter_stores_wrapped_counter {R : Type} (env : Env R) (state : AppState R)
    (x y : Nat) :
    (do_x_exit env (cell_cr env state x) (cell_ci env state y) 0).iter = 0 ∧
      escape_value env { state with max_iter := 0 } x y = 4294967295 ∧
      ¬ (escape_value env { state with max_iter := 0 } x y
          ≤ ({ state with max_iter := 0 } : AppState R).max_iter) := by
  have h : escape_value env { state with max_iter := 0 } x y = 4294967295 := by
    simp [escape_value, do_x_value, do_x_exit, do_x_while, Orbit.init, sub32]
  refine ⟨rfl, h, ?_⟩
  rw [h]
  simp

/-- C9 (counterexample): in integer arithmetic with every sample point at the origin and
`max_iter = 5`, the escape test passes after every number of steps up to `max_iter`, yet the
stored value is `4`, not `max_iter`. -/
theorem sentinel_counterexample :
    (∀ k, k ≤ 5 →
        (orbit intEnv (cell_cr intEnv (sampleState sampleGrid ⟨0, 0⟩ 5) 0)
          (cell_ci intEnv (sampleState sampleGrid ⟨0, 0⟩ 5) 0) k).bounded intEnv = true) ∧
      escape_value intEnv (sampleState sampleGrid ⟨0, 0⟩ 5) 0 0 = 4 ∧
      ¬ (escape_value intEnv (sampleState sampleGrid ⟨0, 0⟩ 5) 0 0
            = (sampleState sampleGrid ⟨0, 0⟩ 5).max_iter ↔
          ∀ k, k ≤ (sampleState sampleGrid ⟨0, 0⟩ 5).max_iter →
            (orbit intEnv (cell_cr intEnv (sampleState sampleGrid ⟨0, 0⟩ 5) 0)
              (cell_ci intEnv (sampleState sampleGrid ⟨0, 0⟩ 5) 0) k).bounded intEnv
              = true) := by
  decide

/-- C10: for a range with `x_begin ≤ x_end ≤ width` and `y_begin ≤ y_end ≤ height`,
`do_mandelbrot` returns, keeps the dimensions, stores the evaluator's value in every cell
`(x, y)` with `x_begin ≤ x < x_end` and `y_begin ≤ y < y_end`, and leaves every other grid
cell as it was. -/
theorem do_mandelbrot_writes_exactly_range {R : Type} (env : Env R) (state : AppState R)
    (range : Range2Du32) (dst : Matrix)
    (_hxb : range.x_begin ≤ range.x_end) (hxe : range.x_end ≤ dst.width)
    (_hyb : range.y_begin ≤ range.y_end) (hye : range.y_end ≤ dst.height) :
    ∃ dst', do_mandelbrot env state range dst = some dst' ∧
      dst'.width = dst.width ∧ dst'.height = dst.height ∧
      (∀ x y : Nat, range.x_begin ≤ x → x < range.x_end → range.y_begin ≤ y →
        y < range.y_end → dst'.cell x y = escape_value env state x y) ∧
      (∀ x y : Nat, x < dst.width → y < dst.height →
        ¬ (range.x_begin ≤ x ∧ x < range.x_end ∧ range.y_begin ≤ y ∧ y < range.y_end) →
        dst'.cell x y = dst.cell x y) := by
  obtain ⟨dst', hd, hr⟩ := do_mandelbrot_rep env state (Rep.self dst) range hxe hye
  refine ⟨dst', hd, hr.1, hr.2.1, ?_, ?_⟩
  · intro x y h1 h2 h3 h4
    rw [hr.2.2 x y (by omega) (by omega)]
    simp [Range2Du32.contains, h1, h2, h3, h4]
  · intro x y hx hy hout
    rw [hr.2.2 x y hx hy]
    have hc : range.contains x y = false := by
      simp only [Range2Du32.contains, Bool.and_eq_false_iff, decide_eq_false_iff_not]
      omega
    simp [hc]

/-- Witness for C10: columns `1..2` of row `1` of the 4 by 3 sample grid. -/
theorem do_mandelbrot_writes_exactly_range_witness :
    ∃ dst', do_mandelbrot intEnv (sampleState sampleGrid ⟨0, 0⟩ 5) ⟨1, 3, 1, 2⟩ sampleGrid
        = some dst' ∧
      dst'.width = 4 ∧ dst'.height = 3 ∧
      (∀ x y : Nat, 1 ≤ x → x < 3 → 1 ≤ y → y < 2 →
        dst'.cell x y = escape_value intEnv (sampleState sampleGrid ⟨0, 0⟩ 5) x y) ∧
      (∀ x y : Nat, x < 4 → y < 3 → ¬ (1 ≤ x ∧ x < 3 ∧ 1 ≤ y ∧ y < 2) →
        dst'.cell x y = sampleGrid.cell x y) :=
  do_mandelbrot_writes_exactly_range intEnv (sampleState sampleGrid ⟨0, 0⟩ 5) ⟨1, 3, 1, 2⟩
    sampleGrid (by decide) (by decide) (by decide) (by decide)

/-! ## The colour mapper -/

/-- C11: for each of `to_rgb_16`, `to_rgb_32`, `to_rgb_64`, every `rgb_option` and every
`iterations ≥ max_iter`, the result is the black pixel `to_platform_pixel (0, 0, 0)`. -/
theorem to_rgb_black_at_cutoff (cs : Colors) (iterations max_iter rgb_option : Nat)
    (h : iterations ≥ max_iter) :
    to_rgb_16 cs iterations max_iter rgb_option = to_platform_pixel cs 0 0 0 ∧
      to_rgb_32 cs iterations max_iter rgb_option = to_platform_pixel cs 0 0 0 ∧
      to_rgb_64 cs iterations max_iter rgb_option = to_platform_pixel cs 0 0 0 := by
  simp [to_rgb_16, to_rgb_32, to_rgb_64, h]

/-- Witness for C11: `iterations = 120`, `max_iter = 100`, option `3`. -/
theorem to_rgb_black_at_cutoff_witness :
    to_rgb_16 sampleColors 120 100 3 = to_platform_pixel sampleColors 0 0 0 ∧
      to_rgb_32 sampleColors 120 100 3 = to_platform_pixel sampleColors 0 0 0 ∧
      to_rgb_64 sampleColors 120 100 3 = to_platform_pixel sampleColors 0 0 0 :=
  to_rgb_black_at_cutoff sampleColors 120 100 3 (by decide)

/-- C12: for `iterations < max_iter` and `rgb_option` in `1..6`, each `to_rgb_N` returns
`to_platform_pixel (t[c1], t[c2], t[c3])` with `t[c] = palettesN[c][iterations mod N]`, where
`(c1, c2, c3)` is the entry for `rgb_option` in the list `(0,1,2)`, `(0,2,1)`, `(1,0,2)`,
`(1,2,0)`, `(2,0,1)`, `(2,1,0)` of the options `1..6`.  In particular `to_rgb_16` with index `5`
and option `3` gives `(palettes16[1][5], palettes16[0][5], palettes16[2][5])`. -/
theorem to_rgb_permutes_channels (cs : Colors) (iterations max_iter rgb_option : Nat)
    (hlt : iterations < max_iter) (h1 : 1 ≤ rgb_option) (h6 : rgb_option ≤ 6) :
    (∃ c1 c2 c3 : Nat,
      [(0, 1, 2), (0, 2, 1), (1, 0, 2), (1, 2, 0), (2, 0, 1), (2, 1, 0)].get? (rgb_option - 1)
        = some (c1, c2, c3) ∧
      to_rgb_16 cs iterations max_iter rgb_option =
        to_platform_pixel cs (cs.palettes16 c1 (iterations % 16))
          (cs.palettes16 c2 (iterations % 16)) (cs.palettes16 c3 (iterations % 16)) ∧
      to_rgb_32 cs iterations max_iter rgb_option =
        to_platform_pixel cs (cs.palettes32 c1 (iterations % 32))
          (cs.palettes32 c2 (iterations % 32)) (cs.palettes32 c3 (iterations % 32)) ∧
      to_rgb_64 cs iterations max_iter rgb_option =
        to_platform_pixel cs (cs.palettes64 c1 (iterations % 64))
          (cs.palettes64 c2 (iterations % 64)) (cs.palettes64 c3 (iterations % 64))) ∧
    (iterations % 16 = 5 →
      to_rgb_16 cs iterations max_iter 3 =
        to_platform_pixel cs (cs.palettes16 1 5) (cs.palettes16 0 5) (cs.palettes16 2 5)) := by
  have hnot : ¬ iterations ≥ max_iter := by omega
  have hcases : rgb_option = 1 ∨ rgb_option = 2 ∨ rgb_option = 3 ∨ rgb_option = 4 ∨
      rgb_option = 5 ∨ rgb_option = 6 := by omega
  refine ⟨?_, ?_⟩
  · rcases hcases with h | h | h | h | h | h <;> subst h
    · exact ⟨0, 1, 2, rfl, by simp [to_rgb_16, to_rgb_32, to_rgb_64, hnot, rgb_channels]⟩
    · exact ⟨0, 2, 1, rfl, by simp [to_rgb_16, to_rgb_32, to_rgb_64, hnot, rgb_channels]⟩
    · exact ⟨1, 0, 2, rfl, by simp [to_rgb_16, to_rgb_32, to_rgb_64, hnot, rgb_channels]⟩
    · exact ⟨1, 2, 0, rfl, by simp [to_rgb_16, to_rgb_32, to_rgb_64, hnot, rgb_channels]⟩
    · exact ⟨2, 0, 1, rfl, by simp [to_rgb_16, to_rgb_32, to_rgb_64, hnot, rgb_channels]⟩
    · exact ⟨2, 1, 0, rfl, by simp [to_rgb_16, to_rgb_32, to_rgb_64, hnot, rgb_channels]⟩
  · intro h5
    simp [to_rgb_16, hnot, rgb_channels, h5]

/-- Witness for C12: `iterations = 21` (index `5` for `N = 16`), `max_iter = 100`, option `3`. -/
theorem to_rgb_permutes_channels_witness :
    (∃ c1 c2 c3 : Nat,
      [(0, 1, 2), (0, 2, 1), (1, 0, 2), (1, 2, 0), (2, 0, 1), (2, 1, 0)].get? (3 - 1)
        = some (c1, c2, c3) ∧
      to_rgb_16 sampleColors 21 100 3 =
        to_platform_pixel sampleColors (sampleColors.palettes16 c1 (21 % 16))
          (sampleColors.palettes16 c2 (21 % 16)) (sampleColors.palettes16 c3 (21 % 16)) ∧
      to_rgb_32 sampleColors 21 100 3 =
        to_platform_pixel sampleColors (sampleColors.palettes32 c1 (21 % 32))
          (sampleColors.palettes32 c2 (21 % 32)) (sampleColors.palettes32 c3 (21 % 32)) ∧
      to_rgb_64 sampleColors 21 100 3 =
        to_platform_pixel sampleColors (sampleColors.palettes64 c1 (21 % 64))
          (sampleColors.palettes64 c2 (21 % 64)) (sampleColors.palettes64 c3 (21 % 64))) ∧
    (21 % 16 = 5 →
      to_rgb_16 sampleColors 21 100 3 =
        to_platform_pixel sampleColors (sampleColors.palettes16 1 5)
          (sampleColors.palettes16 0 5) (sampleColors.palettes16 2 5)) :=
  to_rgb_permutes_channels sampleColors 21 100 3 (by decide) (by decide) (by decide)

/-- C13 (counterexample): with the sample tables, index `5` and `max_iter = 100`, option `0`
does not give the identity ordering `(palettes64[0][5], palettes64[1][5], palettes64[2][5])`,
and options `0` and `1` give different pixels; the same holds for option `7`. -/
theorem rgb_option_zero_counterexample :
    to_rgb_64 sampleColors 5 100 0 ≠
        to_platform_pixel sampleColors (sampleColors.palettes64 0 5)
          (sampleColors.palettes64 1 5) (sampleColors.palettes64 2 5) ∧
      to_rgb_64 sampleColors 5 100 0 ≠ to_rgb_64 sampleColors 5 100 1 ∧
      to_rgb_16 sampleColors 5 100 0 ≠ to_rgb_16 sampleColors 5 100 1 ∧
      to_rgb_64 sampleColors 5 100 7 ≠
        to_platform_pixel sampleColors (sampleColors.palettes64 0 5)
          (sampleColors.palettes64 1 5) (sampleColors.palettes64 2 5) := by
  decide

/-- C13 (amended): for `iterations < max_iter` and an `rgb_option` that is `0` or greater than
`6`, each `to_rgb_N` returns `to_platform_pixel (t, t, t)` with
`t = palettesN[0][iterations mod N]`: all three channels come from table `0`.  The result
equals that of option `1` whenever the three tables agree at the index. -/
theorem to_rgb_out_of_range_option (cs : Colors) (iterations max_iter rgb_option : Nat)
    (hlt : iterations < max_iter) (hopt : rgb_option = 0 ∨ 6 < rgb_option) :
    to_rgb_16 cs iterations max_iter rgb_option =
        to_platform_pixel cs (cs.palettes16 0 (iterations % 16))
          (cs.palettes16 0 (iterations % 16)) (cs.palettes16 0 (iterations % 16)) ∧
      to_rgb_32 cs iterations max_iter rgb_option =
        to_platform_pixel cs (cs.palettes32 0 (iterations % 32))
          (cs.palettes32 0 (iterations % 32)) (cs.palettes32 0 (iterations % 32)) ∧
      to_rgb_64 cs iterations max_iter rgb_option =
        to_platform_pixel cs (cs.palettes64 0 (iterations % 64))
          (cs.palettes64 0 (iterations % 64)) (cs.palettes64 0 (iterations % 64)) ∧
      (cs.palettes64 1 (iterations % 64) = cs.palettes64 0 (iterations % 64) →
        cs.palettes64 2 (iterations % 64) = cs.palettes64 0 (iterations % 64) →
        to_rgb_64 cs iterations max_iter rgb_option = to_rgb_64 cs iterations max_iter 1) := by
  have hnot : ¬ iterations ≥ max_iter := by omega
  have hch : rgb_channels rgb_option = (0, 0, 0) := by
    unfold rgb_channels
    split <;> first | omega | rfl
  refine ⟨?_, ?_, ?_, ?_⟩
  · simp [to_rgb_16, hnot, hch]
  · simp [to_rgb_32, hnot, hch]
  · simp [to_rgb_64, hnot, hch]
  · intro e1 e2
    have h1 : rgb_channels 1 = (0, 1, 2) := rfl
    simp [to_rgb_64, hnot, hch, h1, e1, e2]

/-- Witness for C13 (amended): `iterations = 5`, `max_iter = 100`, option `9`. -/
theorem to_rgb_out_of_range_option_witness :
    to_rgb_16 sampleColors 5 100 9 =
        to_platform_pixel sampleColors (sampleColors.palettes16 0 (5 % 16))
          (sampleColors.palettes16 0 (5 % 16)) (sampleColors.palettes16 0 (5 % 16)) ∧
      to_rgb_32 sampleColors 5 100 9 =
        to_platform_pixel sampleColors (sampleColors.palettes32 0 (5 % 32))
          (sampleColors.palettes32 0 (5 % 32)) (sampleColors.palettes32 0 (5 % 32)) ∧
      to_rgb_64 sampleColors 5 100 9 =
        to_platform_pixel sampleColors (sampleColors.palettes64 0 (5 % 64))
          (sampleColors.palettes64 0 (5 % 64)) (sampleColors.palettes64 0 (5 % 64)) ∧
      (sampleColors.palettes64 1 (5 % 64) = sampleColors.palettes64 0 (5 % 64) →
        sampleColors.palettes64 2 (5 % 64) = sampleColors.palettes64 0 (5 % 64) →
        to_rgb_64 sampleColors 5 100 9 = to_rgb_64 sampleColors 5 100 1) :=
  to_rgb_out_of_range_option sampleColors 5 100 9 (by decide) (Or.inr (by decide))

/-- C14: for each of `to_rgb_16`, `to_rgb_32`, `to_rgb_64` (palette size `N`), if
`a < max_iter`, `b < max_iter'` and `a mod N = b mod N`, then the results for `a` under
`max_iter` and for `b` under `max_iter'` are equal, for every `rgb_option`. -/
theorem to_rgb_depends_on_index_only (cs : Colors) (a b max_iter max_iter' rgb_option : Nat)
    (ha : a < max_iter) (hb : b < max_iter') :
    (a % 16 = b % 16 →
        to_rgb_16 cs a max_iter rgb_option = to_rgb_16 cs b max_iter' rgb_option) ∧
      (a % 32 = b % 32 →
        to_rgb_32 cs a max_iter rgb_option = to_rgb_32 cs b max_iter' rgb_option) ∧
      (a % 64 = b % 64 →
        to_rgb_64 cs a max_iter rgb_option = to_rgb_64 cs b max_iter' rgb_option) := by
  have hna : ¬ a ≥ max_iter := by omega
  have hnb : ¬ b ≥ max_iter' := by omega
  refine ⟨?_, ?_, ?_⟩ <;> intro h
  · simp [to_rgb_16, hna, hnb, h]
  · simp [to_rgb_32, hna, hnb, h]
  · simp [to_rgb_64, hna, hnb, h]

/-- Witness for C14: `a = 5` under `max_iter = 100` and `b = 69` under `max_iter = 70`. -/
theorem to_rgb_depends_on_index_only_witness :
    (5 % 16 = 69 % 16 → to_rgb_16 sampleColors 5 100 2 = to_rgb_16 sampleColors 69 70 2) ∧
      (5 % 32 = 69 % 32 → to_rgb_32 sampleColors 5 100 2 = to_rgb_32 sampleColors 69 70 2) ∧
      (5 % 64 = 69 % 64 → to_rgb_64 sampleColors 5 100 2 = to_rgb_64 sampleColors 69 70 2) :=
  to_rgb_depends_on_index_only sampleColors 5 69 100 70 2 (by decide) (by decide)


theorem min_upto_le (data : Nat → Nat) : ∀ k p, p ≤ k → min_upto data k ≤ data p := by
  intro k
  induction k with
  | zero => intro p hp; have : p = 0 := by omega
            subst this; exact Nat.le_refl _
  | succ k ih =>
    intro p hp
    simp only [min_upto]
    by_cases h : p = k + 1
    · subst h; exact Nat.min_le_right _ _
    · exact Nat.le_trans (Nat.min_le_left _ _) (ih p (by omega))

theorem min_upto_attained (data : Nat → Nat) :
    ∀ k, ∃ p, p ≤ k ∧ data p = min_upto data k := by
  intro k
  induction k with
  | zero => exact ⟨0, Nat.le_refl 0, rfl⟩
  | succ k ih =>
    obtain ⟨p, hp, he⟩ := ih
    simp only [min_upto]
    by_cases h : min_upto data k ≤ data (k + 1)
    · exact ⟨p, by omega, by rw [Nat.min_eq_left h]; exact he⟩
    · exact ⟨k + 1, Nat.le_refl _, by rw [Nat.min_eq_right (by omega)]⟩

theorem le_max_upto (data : Nat → Nat) : ∀ k p, p ≤ k → data p ≤ max_upto data k := by
  intro k
  induction k with
  | zero => intro p hp; have : p = 0 := by omega
            subst this; exact Nat.le_refl _
  | succ k ih =>
    intro p hp
    simp only [max_upto]
    by_cases h : p = k + 1
    · subst h; exact Nat.le_max_right _ _
    · exact Nat.le_trans (ih p (by omega)) (Nat.le_max_left _ _)

theorem max_upto_attained (data : Nat → Nat) :
    ∀ k, ∃ p, p ≤ k ∧ data p = max_upto data k := by
  intro k
  induction k with
  | zero => exact ⟨0, Nat.le_refl 0, rfl⟩
  | succ k ih =>
    obtain ⟨p, hp, he⟩ := ih
    simp only [max_upto]
    by_cases h : data (k + 1) ≤ max_upto data k
    · exact ⟨p, by omega, by rw [Nat.max_eq_left h]; exact he⟩
    · exact ⟨k + 1, Nat.le_refl _, by rw [Nat.max_eq_right (by omega)]⟩

/-- The element-wise transform of `draw`: every offset of the buffer receives `g` of the grid
element at the same offset. -/
theorem transform_spec (mat dst : Matrix) (g : Nat → Nat)
    (hd : mat.width * mat.height ≤ dst.width * dst.height) :
    ∃ dst', loop (fun p d => (mat.load p).bind (fun i => d.store p (g i)))
        (mat.width * mat.height) 0 dst = some dst' ∧
      dst'.width = dst.width ∧ dst'.height = dst.height ∧
      ∀ p, p < mat.width * mat.height → dst'.data p = g (mat.data p) := by
  obtain ⟨dst', hl, hP⟩ := loop_invariant
    (fun p d => (mat.load p).bind (fun i => d.store p (g i)))
    (fun i d => d.width = dst.width ∧ d.height = dst.height ∧
      ∀ p, p < i → d.data p = g (mat.data p))
    (mat.width * mat.height) 0 dst ⟨rfl, rfl, fun p hp => absurd hp (Nat.not_lt_zero p)⟩ (by
      intro j t _ hj ⟨hw, hh, hc⟩
      have hj' : j < mat.width * mat.height := by omega
      have hjd : j < t.width * t.height := by rw [hw, hh]; omega
      refine ⟨{ t with data := fun q => if q = j then g (mat.data j) else t.data q }, ?_, hw,
        hh, ?_⟩
      · simp [Matrix.load, Matrix.store, hj', hjd]
      · intro p hp
        by_cases hpj : p = j
        · subst hpj; simp
        · simp only [hpj, if_false]
          exact hc p (by omega))
  refine ⟨dst', hl, hP.1, hP.2.1, ?_⟩
  intro p hp
  exact hP.2.2 p (by omega)


theorem offset_split {w h p : Nat} (hp : p < w * h) :
    ∃ x y, x < w ∧ y < h ∧ p = y * w + x := by
  have hw : 0 < w := by
    rcases Nat.eq_zero_or_pos w with h0 | h0
    · subst h0; simp at hp
    · exact h0
  refine ⟨p % w, p / w, Nat.mod_lt p hw, ?_, ?_⟩
  · exact Nat.div_lt_of_lt_mul hp
  · rw [Nat.mul_comm]; exact (Nat.div_add_mod p w).symm

/-- Effect of `draw` on a non-empty grid and an image of the same dimensions. -/
theorem draw_spec {R : Type} (cs : Colors) (dst : Matrix) (state : AppState R)
    (hn : 0 < state.iterations.width * state.iterations.height)
    (hdw : dst.width = state.iterations.width) (hdh : dst.height = state.iterations.height) :
    ∃ dst', draw cs dst state = some dst' ∧
      dst'.width = state.iterations.width ∧ dst'.height = state.iterations.height ∧
      ∀ p, p < state.iterations.width * state.iterations.height →
        dst'.data p = to_rgb_64 cs
          (sub32 (state.iterations.data p)
            (min_upto state.iterations.data
              (state.iterations.width * state.iterations.height - 1)))
          (sub32
            (max_upto state.iterations.data
              (state.iterations.width * state.iterations.height - 1))
            (min_upto state.iterations.data
              (state.iterations.width * state.iterations.height - 1)))
          state.rgb_option := by
  obtain ⟨dst', hl, hw', hh', hc⟩ := transform_spec state.iterations dst
    (fun i => to_rgb_64 cs
      (sub32 i (min_upto state.iterations.data
        (state.iterations.width * state.iterations.height - 1)))
      (sub32
        (max_upto state.iterations.data
          (state.iterations.width * state.iterations.height - 1))
        (min_upto state.iterations.data
          (state.iterations.width * state.iterations.height - 1)))
      state.rgb_option)
    (by rw [hdw, hdh])
  refine ⟨dst', ?_, by rw [hw', hdw], by rw [hh', hdh], hc⟩
  have hne : ¬ state.iterations.width * state.iterations.height = 0 := by omega
  simp only [draw, minmax_element, hne, if_false, Option.some_bind]
  exact hl

/-- C16: for a non-empty grid in which every cell holds the same value `v` (for instance the
never-escaped value of a 4 by 4 grid evaluated with `max_iter = 100`), an image of the same
dimensions and every `rgb_option`, `draw` returns and every pixel of the image is the black
pixel `to_platform_pixel (0, 0, 0)`. -/
theorem draw_uniform_grid_is_black {R : Type} (cs : Colors) (dst : Matrix)
    (state : AppState R) (v : Nat)
    (hw : 0 < state.iterations.width) (hh : 0 < state.iterations.height)
    (hdw : dst.width = state.iterations.width) (hdh : dst.height = state.iterations.height)
    (hall : ∀ x y : Nat, x < state.iterations.width → y < state.iterations.height →
      state.iterations.cell x y = v) :
    ∃ dst', draw cs dst state = some dst' ∧
      dst'.width = state.iterations.width ∧ dst'.height = state.iterations.height ∧
      ∀ x y : Nat, x < state.iterations.width → y < state.iterations.height →
        dst'.cell x y = to_platform_pixel cs 0 0 0 := by
  have hn : 0 < state.iterations.width * state.iterations.height := Nat.mul_pos hw hh
  obtain ⟨dst', hd, hw', hh', hc⟩ := draw_spec cs dst state hn hdw hdh
  have hdata : ∀ p, p < state.iterations.width * state.iterations.height →
      state.iterations.data p = v := by
    intro p hp
    obtain ⟨x, y, hx, hy, rfl⟩ := offset_split hp
    exact hall x y hx hy
  have hmin : min_upto state.iterations.data
      (state.iterations.width * state.iterations.height - 1) = v := by
    obtain ⟨p, hp, he⟩ := min_upto_attained state.iterations.data
      (state.iterations.width * state.iterations.height - 1)
    rw [← he]; exact hdata p (by omega)
  have hmax : max_upto state.iterations.data
      (state.iterations.width * state.iterations.height - 1) = v := by
    obtain ⟨p, hp, he⟩ := max_upto_attained state.iterations.data
      (state.iterations.width * state.iterations.height - 1)
    rw [← he]; exact hdata p (by omega)
  refine ⟨dst', hd, hw', hh', ?_⟩
  intro x y hx hy
  have hp := offset_lt hx hy
  have hcell : dst'.cell x y = dst'.data (y * state.iterations.width + x) := by
    simp [Matrix.cell, hw']
  rw [hcell, hc _ hp, hmin, hmax, hdata _ hp]
  have h0 : sub32 v v = 0 := by unfold sub32; omega
  simp [to_rgb_64, h0]

/-- Witness for C16: the 4 by 4 grid whose cells all hold `99`, the value the evaluator stores
for a cell that never escapes with `max_iter = 100`. -/
theorem draw_uniform_grid_is_black_witness :
    ∃ dst', draw sampleColors sampleImage (sampleState flatGrid ⟨0, 0⟩ 100) = some dst' ∧
      dst'.width = 4 ∧ dst'.height = 4 ∧
      ∀ x y : Nat, x < 4 → y < 4 → dst'.cell x y = to_platform_pixel sampleColors 0 0 0 :=
  draw_uniform_grid_is_black sampleColors sampleImage (sampleState flatGrid ⟨0, 0⟩ 100) 99
    (by decide) (by decide) rfl rfl (fun _ _ _ _ => rfl)


/-- How `draw` depends on the tables: with 64-entry tables that are zero at every index (an
instance chosen for illustration, the tables of `colors.hpp` not being given), on the 2 by 1
grid holding `0` and `1` (maximum `1`, in the cell `(1, 0)`), `draw` writes the black pixel to
the pixel `(0, 0)` although its cell holds `0`, not the grid maximum. -/
theorem draw_zero_table_black_below_maximum :
    ∃ dst', draw darkColors smallImage
        { sampleState stepGrid ⟨0, 0⟩ 100 with rgb_option := 1 } = some dst' ∧
      (∀ x y : Nat, x < 2 → y < 1 → stepGrid.cell x y ≤ stepGrid.cell 1 0) ∧
      stepGrid.cell 0 0 ≠ stepGrid.cell 1 0 ∧
      dst'.cell 0 0 = to_platform_pixel darkColors 0 0 0 := by
  obtain ⟨dst', hd, hw', _, hc⟩ := draw_spec darkColors smallImage
    { sampleState stepGrid ⟨0, 0⟩ 100 with rgb_option := 1 } (by decide) rfl rfl
  refine ⟨dst', hd, ?_, by decide, ?_⟩
  · intro x y hx hy
    have hy0 : y = 0 := by omega
    subst hy0
    interval_cases x <;> decide
  · have h0 := hc 0 (by decide)
    have hcell : dst'.cell 0 0 = dst'.data 0 := by simp [Matrix.cell]
    rw [hcell, h0]
    decide

/-- Normalisation by `draw`: for a non-empty grid of `u32` cells with minimum `m` and maximum
`M` and an image of the same dimensions, `draw` returns and writes to each pixel
`to_rgb_64 (v - m, M - m, rgb_option)`, where `v` is the cell at the same position.  Hence a
pixel whose cell holds `M` is black (so at least one pixel is black), every other pixel is
`to_platform_pixel` of the table entries at the index `(v - m) mod 64` in the order selected by
`rgb_option`, and the image does not depend on `state.max_iter`.  A pixel is black only for a
cell holding `M` provided no table entry in that order gives the black pixel. -/
theorem draw_normalises_by_grid_range {R : Type} (cs : Colors) (dst : Matrix)
    (state : AppState R)
    (hw : 0 < state.iterations.width) (hh : 0 < state.iterations.height)
    (hdw : dst.width = state.iterations.width) (hdh : dst.height = state.iterations.height)
    (hu32 : ∀ x y : Nat, x < state.iterations.width → y < state.iterations.height →
      state.iterations.cell x y < 4294967296) :
    ∃ dst' m M, draw cs dst state = some dst' ∧
      dst'.width = state.iterations.width ∧ dst'.height = state.iterations.height ∧
      (∀ x y : Nat, x < state.iterations.width → y < state.iterations.height →
        m ≤ state.iterations.cell x y ∧ state.iterations.cell x y ≤ M) ∧
      (∃ x y : Nat, x < state.iterations.width ∧ y < state.iterations.height ∧
        state.iterations.cell x y = m) ∧
      (∃ x y : Nat, x < state.iterations.width ∧ y < state.iterations.height ∧
        state.iterations.cell x y = M ∧ dst'.cell x y = to_platform_pixel cs 0 0 0) ∧
      (∀ x y : Nat, x < state.iterations.width → y < state.iterations.height →
        dst'.cell x y =
            to_rgb_64 cs (state.iterations.cell x y - m) (M - m) state.rgb_option ∧
          (state.iterations.cell x y = M → dst'.cell x y = to_platform_pixel cs 0 0 0) ∧
          (state.iterations.cell x y ≠ M →
            dst'.cell x y = to_platform_pixel cs
              (cs.palettes64 (rgb_channels state.rgb_option).1
                ((state.iterations.cell x y - m) % 64))
              (cs.palettes64 (rgb_channels state.rgb_option).2.1
                ((state.iterations.cell x y - m) % 64))
              (cs.palettes64 (rgb_channels state.rgb_option).2.2
                ((state.iterations.cell x y - m) % 64))) ∧
          ((∀ i, i < 64 →
              to_platform_pixel cs (cs.palettes64 (rgb_channels state.rgb_option).1 i)
                (cs.palettes64 (rgb_channels state.rgb_option).2.1 i)
                (cs.palettes64 (rgb_channels state.rgb_option).2.2 i)
                ≠ to_platform_pixel cs 0 0 0) →
            (dst'.cell x y = to_platform_pixel cs 0 0 0 ↔ state.iterations.cell x y = M))) ∧
      (∀ max_iter' : Nat, draw cs dst { state with max_iter := max_iter' } = some dst') := by
  have hn : 0 < state.iterations.width * state.iterations.height := Nat.mul_pos hw hh
  obtain ⟨dst', hd, hw', hh', hc⟩ := draw_spec cs dst state hn hdw hdh
  obtain ⟨pm, hpm, hem⟩ := min_upto_attained state.iterations.data
    (state.iterations.width * state.iterations.height - 1)
  obtain ⟨pM, hpM, heM⟩ := max_upto_attained state.iterations.data
    (state.iterations.width * state.iterations.height - 1)
  have hle := min_upto_le state.iterations.data
    (state.iterations.width * state.iterations.height - 1)
  have hge := le_max_upto state.iterations.data
    (state.iterations.width * state.iterations.height - 1)
  generalize min_upto state.iterations.data
    (state.iterations.width * state.iterations.height - 1) = m at hc hem hle
  generalize max_upto state.iterations.data
    (state.iterations.width * state.iterations.height - 1) = M at hc heM hge
  have hbound : ∀ x y : Nat, x < state.iterations.width → y < state.iterations.height →
      m ≤ state.iterations.cell x y ∧ state.iterations.cell x y ≤ M := by
    intro x y hx hy
    have hp := offset_lt hx hy
    exact ⟨hle _ (by omega), hge _ (by omega)⟩
  obtain ⟨xm, ym, hxm, hym, hpm'⟩ := offset_split (show pm < state.iterations.width *
    state.iterations.height by omega)
  obtain ⟨xM, yM, hxM, hyM, hpM'⟩ := offset_split (show pM < state.iterations.width *
    state.iterations.height by omega)
  have hcm : state.iterations.cell xm ym = m := by
    show state.iterations.data (ym * state.iterations.width + xm) = m
    rw [← hpm']; exact hem
  have hcM : state.iterations.cell xM yM = M := by
    show state.iterations.data (yM * state.iterations.width + xM) = M
    rw [← hpM']; exact heM
  have hMlt : M < 4294967296 := by rw [← hcM]; exact hu32 xM yM hxM hyM
  have hmM : m ≤ M := by rw [← hcM]; exact (hbound xM yM hxM hyM).1
  have hpix : ∀ x y : Nat, x < state.iterations.width → y < state.iterations.height →
      dst'.cell x y =
        to_rgb_64 cs (state.iterations.cell x y - m) (M - m) state.rgb_option := by
    intro x y hx hy
    have hp := offset_lt hx hy
    have hcell : dst'.cell x y = dst'.data (y * state.iterations.width + x) := by
      simp [Matrix.cell, hw']
    have hv := hu32 x y hx hy
    obtain ⟨hb1, hb2⟩ := hbound x y hx hy
    have hs1 : sub32 (state.iterations.cell x y) m = state.iterations.cell x y - m := by
      unfold sub32; omega
    have hs2 : sub32 M m = M - m := by
      clear hc hle hge hcell
      unfold sub32; omega
    rw [hcell, hc _ hp]
    show to_rgb_64 cs (sub32 (state.iterations.cell x y) m) (sub32 M m) state.rgb_option = _
    rw [hs1, hs2]
  have hblack : ∀ x y : Nat, x < state.iterations.width → y < state.iterations.height →
      state.iterations.cell x y = M → dst'.cell x y = to_platform_pixel cs 0 0 0 := by
    intro x y hx hy hM
    rw [hpix x y hx hy, hM]
    simp [to_rgb_64]
  have hother : ∀ x y : Nat, x < state.iterations.width → y < state.iterations.height →
      state.iterations.cell x y ≠ M →
      dst'.cell x y = to_platform_pixel cs
        (cs.palettes64 (rgb_channels state.rgb_option).1
          ((state.iterations.cell x y - m) % 64))
        (cs.palettes64 (rgb_channels state.rgb_option).2.1
          ((state.iterations.cell x y - m) % 64))
        (cs.palettes64 (rgb_channels state.rgb_option).2.2
          ((state.iterations.cell x y - m) % 64)) := by
    intro x y hx hy hM
    obtain ⟨hb1, hb2⟩ := hbound x y hx hy
    have hlt : ¬ state.iterations.cell x y - m ≥ M - m := by omega
    rw [hpix x y hx hy]
    simp only [to_rgb_64, hlt, if_false]
  refine ⟨dst', m, M, hd, hw', hh', hbound, ⟨xm, ym, hxm, hym, hcm⟩,
    ⟨xM, yM, hxM, hyM, hcM, hblack xM yM hxM hyM hcM⟩, ?_, ?_⟩
  · intro x y hx hy
    refine ⟨hpix x y hx hy, hblack x y hx hy, hother x y hx hy, ?_⟩
    intro hnb
    constructor
    · intro hb
      by_contra hne
      rw [hother x y hx hy hne] at hb
      exact hnb _ (Nat.mod_lt _ (by decide)) hb
    · exact hblack x y hx hy
  · intro max_iter'
    rw [← hd]
    rfl

/-- The normalisation by `draw` on the 2 by 1 grid holding `0` and `1` with the sample
tables. -/
theorem draw_normalises_by_grid_range_witness :
    ∃ dst' m M, draw sampleColors smallImage (sampleState stepGrid ⟨0, 0⟩ 100) = some dst' ∧
      dst'.width = stepGrid.width ∧ dst'.height = stepGrid.height ∧
      (∀ x y : Nat, x < stepGrid.width → y < stepGrid.height →
        m ≤ stepGrid.cell x y ∧ stepGrid.cell x y ≤ M) ∧
      (∃ x y : Nat, x < stepGrid.width ∧ y < stepGrid.height ∧
        stepGrid.cell x y = m) ∧
      (∃ x y : Nat, x < stepGrid.width ∧ y < stepGrid.height ∧
        stepGrid.cell x y = M ∧ dst'.cell x y = to_platform_pixel sampleColors 0 0 0) ∧
      (∀ x y : Nat, x < stepGrid.width → y < stepGrid.height →
        dst'.cell x y =
            to_rgb_64 sampleColors (stepGrid.cell x y - m) (M - m) 0 ∧
          (stepGrid.cell x y = M → dst'.cell x y = to_platform_pixel sampleColors 0 0 0) ∧
          (stepGrid.cell x y ≠ M →
            dst'.cell x y = to_platform_pixel sampleColors
              (sampleColors.palettes64 (rgb_channels 0).1
                ((stepGrid.cell x y - m) % 64))
              (sampleColors.palettes64 (rgb_channels 0).2.1
                ((stepGrid.cell x y - m) % 64))
              (sampleColors.palettes64 (rgb_channels 0).2.2
                ((stepGrid.cell x y - m) % 64))) ∧
          ((∀ i, i < 64 →
              to_platform_pixel sampleColors
                (sampleColors.palettes64 (rgb_channels 0).1 i)
                (sampleColors.palettes64 (rgb_channels 0).2.1 i)
                (sampleColors.palettes64 (rgb_channels 0).2.2 i)
                ≠ to_platform_pixel sampleColors 0 0 0) →
            (dst'.cell x y = to_platform_pixel sampleColors 0 0 0 ↔ stepGrid.cell x y = M))) ∧
      (∀ max_iter' : Nat,
        draw sampleColors smallImage { sampleState stepGrid ⟨0, 0⟩ 100 with max_iter := max_iter' }
          = some dst') :=
  draw_normalises_by_grid_range sampleColors smallImage (sampleState stepGrid ⟨0, 0⟩ 100)
    (by decide) (by decide) rfl rfl
    (fun x y hx hy => by
      have hx2 : x < 2 := hx
      have hy1 : y < 1 := hy
      show y * 2 + x < 4294967296
      omega)

/-! ## The exit of the escape-time loop -/

/-- The loop of `do_x` started after `j` body executions with `max_iter - j` executions left
exits after `n` executions in all, where the escape test passes at every step from `j` up to
`n` and fails at `n` unless `n = max_iter`. -/
theorem do_x_while_exit {R : Type} (env : Env R) (cr ci : R) (max_iter : Nat)
    (hm : max_iter < 4294967296) :
    ∀ fuel j, j + fuel = max_iter →
      ∃ n, j ≤ n ∧ n ≤ max_iter ∧
        do_x_while env cr ci max_iter fuel (orbit env cr ci j) = orbit env cr ci n ∧
        (∀ k, j ≤ k → k < n → (orbit env cr ci k).bounded env = true) ∧
        (n < max_iter → (orbit env cr ci n).bounded env = false) := by
  intro fuel
  induction fuel with
  | zero =>
    intro j hj
    exact ⟨j, Nat.le_refl j, by omega, rfl, fun k h1 h2 => by omega, fun h => by omega⟩
  | succ fuel ih =>
    intro j hj
    have hi : (orbit env cr ci j).iter = j := orbit_iter env cr ci j (by omega)
    by_cases hb : (orbit env cr ci j).bounded env = true
    · have hc : do_x_cond env max_iter (orbit env cr ci j) = true := by
        simp [do_x_cond, hi, hb]; omega
      obtain ⟨n, h1, h2, h3, h4, h5⟩ := ih (j + 1) (by omega)
      refine ⟨n, by omega, h2, ?_, ?_, h5⟩
      · simp only [do_x_while, hc, if_true]
        exact h3
      · intro k hk1 hk2
        by_cases hkj : k = j
        · subst hkj; exact hb
        · exact h4 k (by omega) hk2
    · have hc : do_x_cond env max_iter (orbit env cr ci j) = false := by
        simp [do_x_cond, hb]
      refine ⟨j, Nat.le_refl j, by omega, ?_, fun k h1 h2 => by omega, ?_⟩
      · simp [do_x_while, hc]
      · intro _; simpa using hb

/-- C19: for `max_iter ≥ 1` (the first escape test, `0.0 + 0.0 <= 4.0`, passes), the value
stored for a cell is one less than the number `n` of executions of the loop body: the loop
exits in the state reached after `n = stored + 1` executions, the stored value lies in
`[0, max_iter - 1]`, and it equals `max_iter - 1` whenever the escape test passes at each of
the `max_iter` tests of the loop. -/
theorem stored_value_is_executions_minus_one {R : Type} (env : Env R) (state : AppState R)
    (x y : Nat) (h1 : 1 ≤ state.max_iter) (hm : state.max_iter < 4294967296)
    (h0 : (Orbit.init env).bounded env = true) :
    do_x_exit env (cell_cr env state x) (cell_ci env state y) state.max_iter =
        orbit env (cell_cr env state x) (cell_ci env state y)
          (escape_value env state x y + 1) ∧
      (do_x_exit env (cell_cr env state x) (cell_ci env state y) state.max_iter).iter =
        escape_value env state x y + 1 ∧
      escape_value env state x y ≤ state.max_iter - 1 ∧
      ((∀ k, k < state.max_iter →
          (orbit env (cell_cr env state x) (cell_ci env state y) k).bounded env = true) →
        escape_value env state x y = state.max_iter - 1) := by
  obtain ⟨n, _, hn2, hn3, hn4, hn5⟩ := do_x_while_exit env (cell_cr env state x)
    (cell_ci env state y) state.max_iter hm state.max_iter 0 (by omega)
  have hexit : do_x_exit env (cell_cr env state x) (cell_ci env state y) state.max_iter
      = orbit env (cell_cr env state x) (cell_ci env state y) n := hn3
  have hiter : (orbit env (cell_cr env state x) (cell_ci env state y) n).iter = n :=
    orbit_iter env _ _ n (by omega)
  have hn1 : 1 ≤ n := by
    by_contra hlt
    have hz : n = 0 := by omega
    subst hz
    have := hn5 (by omega)
    rw [show orbit env (cell_cr env state x) (cell_ci env state y) 0 = Orbit.init env from rfl,
      h0] at this
    exact Bool.noConfusion this
  have hval : escape_value env state x y = n - 1 := by
    show sub32 (do_x_exit env (cell_cr env state x) (cell_ci env state y)
      state.max_iter).iter 1 = n - 1
    rw [hexit, hiter]
    unfold sub32; omega
  have hsucc : escape_value env state x y + 1 = n := by omega
  refine ⟨by rw [hsucc]; exact hexit, by rw [hexit, hiter, hsucc], by omega, ?_⟩
  intro hall
  have : n = state.max_iter := by
    by_contra hne
    have hlt : n < state.max_iter := by omega
    have hf := hn5 hlt
    rw [hall n hlt] at hf
    exact Bool.noConfusion hf
  omega

/-- Witness for C19: the cell `(0, 0)` of the sample state with `max_iter = 5`. -/
theorem stored_value_is_executions_minus_one_witness :
    do_x_exit intEnv (cell_cr intEnv (sampleState sampleGrid ⟨0, 0⟩ 5) 0)
        (cell_ci intEnv (sampleState sampleGrid ⟨0, 0⟩ 5) 0) 5 =
        orbit intEnv (cell_cr intEnv (sampleState sampleGrid ⟨0, 0⟩ 5) 0)
          (cell_ci intEnv (sampleState sampleGrid ⟨0, 0⟩ 5) 0)
          (escape_value intEnv (sampleState sampleGrid ⟨0, 0⟩ 5) 0 0 + 1) ∧
      (do_x_exit intEnv (cell_cr intEnv (sampleState sampleGrid ⟨0, 0⟩ 5) 0)
        (cell_ci intEnv (sampleState sampleGrid ⟨0, 0⟩ 5) 0) 5).iter =
        escape_value intEnv (sampleState sampleGrid ⟨0, 0⟩ 5) 0 0 + 1 ∧
      escape_value intEnv (sampleState sampleGrid ⟨0, 0⟩ 5) 0 0 ≤ 5 - 1 ∧
      ((∀ k, k < 5 →
          (orbit intEnv (cell_cr intEnv (sampleState sampleGrid ⟨0, 0⟩ 5) 0)
            (cell_ci intEnv (sampleState sampleGrid ⟨0, 0⟩ 5) 0) k).bounded intEnv = true) →
        escape_value intEnv (sampleState sampleGrid ⟨0, 0⟩ 5) 0 0 = 5 - 1) :=
  stored_value_is_executions_minus_one intEnv (sampleState sampleGrid ⟨0, 0⟩ 5) 0 0
    (by decide) (by decide) (by decide)


/-- C9 (amended): for `max_iter ≥ 1` and every cell the evaluator fills, the stored value
equals `max_iter - 1` if and only if the escape test `re2 + im2 <= limit` passes at each of the loop's
`max_iter` tests, that is on the state after `k` executions of the body for every
`k < max_iter`.  The escape test is an arbitrary predicate of the loop state that passes on
the initial state, as `0.0 + 0.0 <= 4.0` does, so the loop body runs at least once. -/
theorem stored_sentinel_iff_never_escaped {R : Type} (env : Env R) (state : AppState R)
    (x y : Nat) (h1 : 1 ≤ state.max_iter) (hm : state.max_iter < 4294967296)
    (h0 : (Orbit.init env).bounded env = true) :
    escape_value env state x y = state.max_iter - 1 ↔
      ∀ k, k < state.max_iter →
        (orbit env (cell_cr env state x) (cell_ci env state y) k).bounded env = true := by
  obtain ⟨n, _, hn2, hn3, hn4, hn5⟩ := do_x_while_exit env (cell_cr env state x)
    (cell_ci env state y) state.max_iter hm state.max_iter 0 (by omega)
  have hexit : do_x_exit env (cell_cr env state x) (cell_ci env state y) state.max_iter
      = orbit env (cell_cr env state x) (cell_ci env state y) n := hn3
  have hiter : (orbit env (cell_cr env state x) (cell_ci env state y) n).iter = n :=
    orbit_iter env _ _ n (by omega)
  have hn1 : 1 ≤ n := by
    by_contra hlt
    have hz : n = 0 := by omega
    subst hz
    have hf := hn5 (by omega)
    rw [show orbit env (cell_cr env state x) (cell_ci env state y) 0 = Orbit.init env from rfl,
      h0] at hf
    exact Bool.noConfusion hf
  have hval : escape_value env state x y = n - 1 := by
    show sub32 (do_x_exit env (cell_cr env state x) (cell_ci env state y)
      state.max_iter).iter 1 = n - 1
    rw [hexit, hiter]
    unfold sub32; omega
  rw [hval]
  constructor
  · intro h k hk
    exact hn4 k (Nat.zero_le k) (by omega)
  · intro h
    have hn : n = state.max_iter := by
      by_contra hne
      have hlt : n < state.max_iter := by omega
      have hf := hn5 hlt
      rw [h n hlt] at hf
      exact Bool.noConfusion hf
    rw [hn]

/-- Witness for C9 (amended): the cell `(0, 0)` of the sample state with `max_iter = 5`. -/
theorem stored_sentinel_iff_never_escaped_witness :
    escape_value intEnv (sampleState sampleGrid ⟨0, 0⟩ 5) 0 0 = 5 - 1 ↔
      ∀ k, k < 5 →
        (orbit intEnv (cell_cr intEnv (sampleState sampleGrid ⟨0, 0⟩ 5) 0)
          (cell_ci intEnv (sampleState sampleGrid ⟨0, 0⟩ 5) 0) k).bounded intEnv = true :=
  stored_sentinel_iff_never_escaped intEnv (sampleState sampleGrid ⟨0, 0⟩ 5) 0 0
    (by decide) (by decide) (by decide)

/-! ## The optimised loop and the naive recurrence -/

theorem orbit_rat (min_x min_y width height cr ci : ℚ) :
    ∀ k,
      ((orbit (ratEnv min_x min_y width height) cr ci k).re,
        (orbit (ratEnv min_x min_y width height) cr ci k).im) = naive_orbit cr ci k ∧
      (orbit (ratEnv min_x min_y width height) cr ci k).re2 =
        (orbit (ratEnv min_x min_y width height) cr ci k).re ^ 2 ∧
      (orbit (ratEnv min_x min_y width height) cr ci k).im2 =
        (orbit (ratEnv min_x min_y width height) cr ci k).im ^ 2 := by
  intro k
  induction k with
  | zero => simp [orbit, Orbit.init, ratEnv, naive_orbit]
  | succ k ih =>
    obtain ⟨h1, h2, h3⟩ := ih
    have hre : (naive_orbit cr ci k).1 =
        (orbit (ratEnv min_x min_y width height) cr ci k).re := by rw [← h1]
    have him : (naive_orbit cr ci k).2 =
        (orbit (ratEnv min_x min_y width height) cr ci k).im := by rw [← h1]
    refine ⟨?_, ?_, ?_⟩
    · simp only [orbit, do_x_body, naive_orbit, hre, him, h2, h3]
      simp only [ratEnv]
      ext
      · show _ = _; ring
      · show _ = _; ring
    · simp only [orbit, do_x_body]
      simp only [ratEnv]
      ring
    · simp only [orbit, do_x_body]
      simp only [ratEnv]
      ring

theorem bounded_rat (min_x min_y width height cr ci : ℚ) (k : Nat) :
    (orbit (ratEnv min_x min_y width height) cr ci k).bounded (ratEnv min_x min_y width height)
      = true ↔ norm_sq (naive_orbit cr ci k) ≤ 4 := by
  obtain ⟨h1, h2, h3⟩ := orbit_rat min_x min_y width height cr ci k
  have hn : norm_sq (naive_orbit cr ci k) =
      (orbit (ratEnv min_x min_y width height) cr ci k).re2 +
        (orbit (ratEnv min_x min_y width height) cr ci k).im2 := by
    rw [← h1, h2, h3]; simp only [norm_sq]; ring
  rw [hn]
  simp [Orbit.bounded, ratEnv]

/-- C18: over exact rational arithmetic, after `k` executions of the loop body of `do_x` from
the zero state, `(re, im)` is `z_k` of the naive recurrence `z_0 = 0`, `z_{n+1} = z_n² + c`
with `c = (cr, ci)` (as complex numbers), and `re2 = re²`, `im2 = im²`.  The loop counter `e`
with which the loop exits satisfies `e ≤ max_iter`, `|z_n|² ≤ 4` for every `n < e`, and
`|z_e|² > 4` if `e < max_iter`: it is the least `n ≤ max_iter` with `|z_n|² > 4`, and
`max_iter` if there is none. -/
theorem do_x_refines_naive_recurrence (min_x min_y width height cr ci : ℚ) (max_iter : Nat)
    (hm : max_iter < 4294967296) :
    (∀ k,
      ((orbit (ratEnv min_x min_y width height) cr ci k).re,
        (orbit (ratEnv min_x min_y width height) cr ci k).im) = naive_orbit cr ci k ∧
      (orbit (ratEnv min_x min_y width height) cr ci k).re2 =
        (orbit (ratEnv min_x min_y width height) cr ci k).re ^ 2 ∧
      (orbit (ratEnv min_x min_y width height) cr ci k).im2 =
        (orbit (ratEnv min_x min_y width height) cr ci k).im ^ 2) ∧
    (∀ n,
      (Complex.mk ((naive_orbit cr ci (n + 1)).1 : ℝ) ((naive_orbit cr ci (n + 1)).2 : ℝ)) =
      (Complex.mk ((naive_orbit cr ci n).1 : ℝ) ((naive_orbit cr ci n).2 : ℝ)) ^ 2
        + Complex.mk (cr : ℝ) (ci : ℝ)) ∧
    (do_x_exit (ratEnv min_x min_y width height) cr ci max_iter).iter ≤ max_iter ∧
    (∀ n, n < (do_x_exit (ratEnv min_x min_y width height) cr ci max_iter).iter →
      norm_sq (naive_orbit cr ci n) ≤ 4) ∧
    ((do_x_exit (ratEnv min_x min_y width height) cr ci max_iter).iter < max_iter →
      norm_sq (naive_orbit cr ci
        (do_x_exit (ratEnv min_x min_y width height) cr ci max_iter).iter) > 4) ∧
    (∀ n, n ≤ max_iter → norm_sq (naive_orbit cr ci n) > 4 →
      (∀ k, k < n → norm_sq (naive_orbit cr ci k) ≤ 4) →
      (do_x_exit (ratEnv min_x min_y width height) cr ci max_iter).iter = n) ∧
    ((∀ n, n ≤ max_iter → norm_sq (naive_orbit cr ci n) ≤ 4) →
      (do_x_exit (ratEnv min_x min_y width height) cr ci max_iter).iter = max_iter) := by
  obtain ⟨e, _, he2, he3, he4, he5⟩ := do_x_while_exit (ratEnv min_x min_y width height) cr ci
    max_iter hm max_iter 0 (by omega)
  have hexit : do_x_exit (ratEnv min_x min_y width height) cr ci max_iter
      = orbit (ratEnv min_x min_y width height) cr ci e := he3
  have hiter : (do_x_exit (ratEnv min_x min_y width height) cr ci max_iter).iter = e := by
    rw [hexit]; exact orbit_iter _ _ _ e (by omega)
  have hbelow : ∀ n, n < e → norm_sq (naive_orbit cr ci n) ≤ 4 := fun n hn =>
    (bounded_rat min_x min_y width height cr ci n).mp (he4 n (Nat.zero_le n) hn)
  have hat : e < max_iter → norm_sq (naive_orbit cr ci e) > 4 := by
    intro hlt
    have hf := he5 hlt
    by_contra hle
    have hb := (bounded_rat min_x min_y width height cr ci e).mpr (not_lt.mp hle)
    rw [hb] at hf
    exact Bool.noConfusion hf
  rw [hiter]
  refine ⟨orbit_rat min_x min_y width height cr ci, ?_, he2, hbelow, hat, ?_, ?_⟩
  · intro n
    apply Complex.ext
    · simp [naive_orbit, pow_two]
    · simp [naive_orbit, pow_two]; ring
  · intro n hn hesc hleast
    rcases Nat.lt_trichotomy e n with hlt | heq | hgt
    · exact absurd (hleast e hlt) (not_le.mpr (hat (by omega)))
    · exact heq
    · exact absurd (hbelow n hgt) (not_le.mpr hesc)
  · intro hnone
    by_contra hne
    have hlt : e < max_iter := by omega
    exact absurd (hnone e (by omega)) (not_le.mpr (hat hlt))

/-- Witness for C18: the point `c = (1, 0)` with `max_iter = 10`. -/
theorem do_x_refines_naive_recurrence_witness :
    (∀ k,
      ((orbit (ratEnv 0 0 1 1) 1 0 k).re, (orbit (ratEnv 0 0 1 1) 1 0 k).im)
        = naive_orbit 1 0 k ∧
      (orbit (ratEnv 0 0 1 1) 1 0 k).re2 = (orbit (ratEnv 0 0 1 1) 1 0 k).re ^ 2 ∧
      (orbit (ratEnv 0 0 1 1) 1 0 k).im2 = (orbit (ratEnv 0 0 1 1) 1 0 k).im ^ 2) ∧
    (∀ n, (Complex.mk ((naive_orbit 1 0 (n + 1)).1 : ℝ) ((naive_orbit 1 0 (n + 1)).2 : ℝ)) =
      (Complex.mk ((naive_orbit 1 0 n).1 : ℝ) ((naive_orbit 1 0 n).2 : ℝ)) ^ 2
        + Complex.mk ((1 : ℚ) : ℝ) ((0 : ℚ) : ℝ)) ∧
    (do_x_exit (ratEnv 0 0 1 1) 1 0 10).iter ≤ 10 ∧
    (∀ n, n < (do_x_exit (ratEnv 0 0 1 1) 1 0 10).iter → norm_sq (naive_orbit 1 0 n) ≤ 4) ∧
    ((do_x_exit (ratEnv 0 0 1 1) 1 0 10).iter < 10 →
      norm_sq (naive_orbit 1 0 (do_x_exit (ratEnv 0 0 1 1) 1 0 10).iter) > 4) ∧
    (∀ n, n ≤ 10 → norm_sq (naive_orbit 1 0 n) > 4 →
      (∀ k, k < n → norm_sq (naive_orbit 1 0 k) ≤ 4) →
      (do_x_exit (ratEnv 0 0 1 1) 1 0 10).iter = n) ∧
    ((∀ n, n ≤ 10 → norm_sq (naive_orbit 1 0 n) ≤ 4) →
      (do_x_exit (ratEnv 0 0 1 1) 1 0 10).iter = 10) :=
  do_x_refines_naive_recurrence 0 0 1 1 1 0 10 (by decide)

/-! ## Contracts of the shift and fill phases -/

theorem loop_congr {σ : Type} (body body' : Nat → σ → Option σ) :
    ∀ (n i : Nat) (s : σ), (∀ j t, i ≤ j → j < i + n → body' j t = body j t) →
      loop body' n i s = loop body n i s := by
  intro n
  induction n with
  | zero => intro i s _; rfl
  | succ k ih =>
    intro i s h
    simp only [loop]
    rw [h i s (Nat.le_refl i) (by omega)]
    cases body i s with
    | none => rfl
    | some t => exact ih (i + 1) t (fun j u h1 h2 => h j u (by omega) (by omega))

theorem sub32_checked_eq {a b : Nat} (h : b ≤ a) : sub32_checked a b = some (sub32 a b) := by
  simp [sub32_checked, h]

theorem sub32_eq {a b : Nat} (ha : a < 4294967296) (h : b ≤ a) : sub32 a b = a - b := by
  unfold sub32; omega

theorem copy_left_checked_eq (mat : Matrix) (n : Nat) (hw : mat.width < 4294967296)
    (hn : n ≤ mat.width) : copy_left_checked mat n = copy_left mat n := by
  simp only [copy_left_checked, copy_left, sub32_checked_eq hn, Option.some_bind,
    for_each_row, for_each_range]
  apply loop_congr
  intro y t _ _
  cases t.row_begin y with
  | none => rfl
  | some row =>
    simp only [Option.some_bind]
    apply loop_congr
    intro ix u _ hix
    rw [sub32_eq hw hn] at hix
    have h1 : add32 ix n = ix + n := by unfold add32; omega
    have h2 : sub32 (ix + n) n = ix := by unfold sub32; omega
    have hg : n ≤ add32 ix n ∧ add32 ix n < mat.width ∧
        sub32 (add32 ix n) n < mat.width := by
      rw [h1, h2]; omega
    rw [if_pos hg]

theorem copy_right_checked_eq (mat : Matrix) (n : Nat) (hw : mat.width < 4294967296)
    (hn : n ≤ mat.width) : copy_right_checked mat n = copy_right mat n := by
  simp only [copy_right_checked, copy_right, sub32_checked_eq hn, Option.some_bind,
    for_each_row, for_each_range]
  apply loop_congr
  intro y t _ _
  cases t.row_begin y with
  | none => rfl
  | some row =>
    simp only [Option.some_bind]
    apply loop_congr
    intro ix u _ hix
    have hx : sub32 mat.width n = mat.width - n := sub32_eq hw hn
    rw [hx] at hix ⊢
    have h0 : sub32 (mat.width - n) 1 = mat.width - n - 1 := by unfold sub32; omega
    have h1 : sub32 (mat.width - n - 1) ix = mat.width - n - 1 - ix := by unfold sub32; omega
    have h2 : add32 (mat.width - n - 1 - ix) n = mat.width - 1 - ix := by unfold add32; omega
    have hg : 1 ≤ mat.width - n ∧ ix ≤ sub32 (mat.width - n) 1 ∧
        sub32 (sub32 (mat.width - n) 1) ix < mat.width ∧
        add32 (sub32 (sub32 (mat.width - n) 1) ix) n < mat.width := by
      rw [h0, h1, h2]; omega
    rw [if_pos hg]

theorem copy_rows_step_checked_eq (width : Nat) (d : Vec2Di32) (xl sx tx sy : Nat) (dy : Int)
    (iy : Nat) (m : Matrix) (hs : sx + xl ≤ width) (ht : tx + xl ≤ width) :
    copy_rows_step_checked width d xl sx tx sy dy iy m = copy_rows_step d xl sx tx sy dy iy m := by
  simp only [copy_rows_step_checked, copy_rows_step, std_copy]
  cases m.row_begin (add32 sy (muli32 dy iy)) with
  | none => rfl
  | some src_row =>
    simp only [Option.some_bind]
    cases m.row_begin (addi32 (add32 sy (muli32 dy iy)) d.y) with
    | none => rfl
    | some dst_row =>
      simp only [Option.some_bind]
      apply loop_congr
      intro i u _ hi
      have hg : sx + i < width ∧ tx + i < width := by omega
      rw [if_pos hg]

theorem copy_checked_eq (mat : Matrix) (d : Vec2Di32) (hw : mat.width < 4294967296)
    (hh : mat.height < 4294967296) (hx : d.x.natAbs < mat.width)
    (hy : d.y.natAbs < mat.height) : copy_checked mat d = copy mat d := by
  have hnc : abs32 d.x = d.x.natAbs := abs32_eq hw hx
  have hnr : abs32 d.y = d.y.natAbs := abs32_eq hh hy
  have hxl : sub32 mat.width d.x.natAbs = mat.width - d.x.natAbs := sub32_eq hw (by omega)
  have hyl : sub32 mat.height d.y.natAbs = mat.height - d.y.natAbs := sub32_eq hh (by omega)
  simp only [copy_checked, copy, hnc, hnr]
  by_cases h0 : d.x.natAbs = 0 ∧ d.y.natAbs = 0
  · rw [if_pos h0, if_pos h0]
  · rw [if_neg h0, if_neg h0]
    by_cases h1 : d.y.natAbs = 0
    · rw [if_pos h1, if_pos h1, copy_right_checked_eq mat _ hw (by omega),
        copy_left_checked_eq mat _ hw (by omega)]
    · rw [if_neg h1, if_neg h1, sub32_checked_eq (show d.x.natAbs ≤ mat.width by omega),
        sub32_checked_eq (show d.y.natAbs ≤ mat.height by omega)]
      simp only [Option.some_bind, hxl, hyl]
      by_cases hup : d.y < 0
      · simp only [hup, decide_True, if_true, Option.some_bind]
        apply loop_congr
        intro iy t _ _
        apply copy_rows_step_checked_eq
        · by_cases hr : d.x > 0
          · simp only [hr, decide_True, if_true]; omega
          · simp only [hr, decide_False, if_false, Bool.false_eq_true]; omega
        · by_cases hr : d.x > 0
          · have ha : addi32 0 d.x = d.x.natAbs := by unfold addi32; omega
            simp only [hr, decide_True, if_true, ha]; omega
          · have ha : addi32 d.x.natAbs d.x = 0 := by unfold addi32; omega
            simp only [hr, decide_False, if_false, Bool.false_eq_true, ha]; omega
      · have h1' : 1 ≤ mat.height - d.y.natAbs := by omega
        simp only [hup, decide_False, if_false, Bool.false_eq_true,
          sub32_checked_eq h1', Option.some_bind]
        apply loop_congr
        intro iy t _ _
        apply copy_rows_step_checked_eq
        · by_cases hr : d.x > 0
          · simp only [hr, decide_True, if_true]; omega
          · simp only [hr, decide_False, if_false, Bool.false_eq_true]; omega
        · by_cases hr : d.x > 0
          · have ha : addi32 0 d.x = d.x.natAbs := by unfold addi32; omega
            simp only [hr, decide_True, if_true, ha]; omega
          · have ha : addi32 d.x.natAbs d.x = 0 := by unfold addi32; omega
            simp only [hr, decide_False, if_false, Bool.false_eq_true, ha]; omega


theorem mandelbrot_ranges_checked_eq (w h : Nat) (d : Vec2Di32) (hw : w < 4294967296)
    (hh : h < 4294967296) (hdx : d.x.natAbs < w) (hdy : d.y.natAbs < h) :
    mandelbrot_ranges_checked w h d = some (mandelbrot_ranges w h d) := by
  have hx1 : sub32_checked w 1 = some (sub32 w 1) := sub32_checked_eq (by omega)
  have hy1 : sub32_checked h 1 = some (sub32 h 1) := sub32_checked_eq (by omega)
  have hx2 : sub32_checked (sub32 w 1) (abs32 d.x) = some (sub32 (sub32 w 1) (abs32 d.x)) := by
    apply sub32_checked_eq
    rw [abs32_eq hw hdx, sub32_eq hw (by omega)]; omega
  have hy2 : sub32_checked (sub32 h 1) (abs32 d.y) = some (sub32 (sub32 h 1) (abs32 d.y)) := by
    apply sub32_checked_eq
    rw [abs32_eq hh hdy, sub32_eq hh (by omega)]; omega
  simp only [mandelbrot_ranges_checked, mandelbrot_ranges, hx1, hy1, hx2, hy2,
    Option.some_bind, Option.map_some']
  by_cases h1 : abs32 d.x = 0 <;> by_cases h2 : abs32 d.y = 0 <;> by_cases h3 : d.x > 0 <;>
    by_cases h4 : d.y > 0 <;> simp [h1, h2, h3, h4]

theorem do_mandelbrot_checked_eq {R : Type} (env : Env R) (state : AppState R)
    (r : Range2Du32) (dst : Matrix)
    (hr : r.x_begin ≤ r.x_end ∧ r.x_end ≤ dst.width ∧ r.y_begin ≤ r.y_end ∧
      r.y_end ≤ dst.height) :
    do_mandelbrot_checked env state r dst = do_mandelbrot env state r dst := by
  simp only [do_mandelbrot_checked, do_mandelbrot, if_pos hr, for_each_range]
  apply loop_congr
  intro y t _ _
  simp only [do_row, for_each_range]
  cases t.row_begin y with
  | none => rfl
  | some row =>
    simp only [Option.some_bind]
    apply loop_congr
    intro x u _ hx
    have hg : x < dst.width := by omega
    rw [if_pos hg]

theorem do_ranges_checked_eq {R : Type} (env : Env R) (state : AppState R) {w h : Nat} :
    ∀ (rs : List Range2Du32) (m : Matrix) (f : Nat → Nat → Nat), Rep m w h f →
      (∀ r ∈ rs,
        r.x_begin ≤ r.x_end ∧ r.x_end ≤ w ∧ r.y_begin ≤ r.y_end ∧ r.y_end ≤ h) →
      do_ranges_checked env state rs m = do_ranges env state rs m := by
  intro rs
  induction rs with
  | nil => intro m f _ _; rfl
  | cons r rs ih =>
    intro m f hr hin
    have hrin := hin r (List.mem_cons_self r rs)
    obtain ⟨m1, hm1, hr1⟩ := do_mandelbrot_rep env state hr r hrin.2.1 hrin.2.2.2
    simp only [do_ranges_checked, do_ranges]
    rw [do_mandelbrot_checked_eq env state r m (by rw [hr.1, hr.2.1]; exact hrin), hm1]
    simp only [Option.some_bind]
    exact ih m1 _ hr1 (fun r' hr' => hin r' (List.mem_cons_of_mem r hr'))

theorem mandelbrot_checked_eq {R : Type} (env : Env R) (state : AppState R)
    (hw : state.iterations.width < 4294967296) (hh : state.iterations.height < 4294967296)
    (hdx : state.pixel_shift.x.natAbs < state.iterations.width)
    (hdy : state.pixel_shift.y.natAbs < state.iterations.height) :
    mandelbrot_checked env state = mandelbrot env state := by
  simp only [mandelbrot_checked, mandelbrot,
    mandelbrot_ranges_checked_eq _ _ _ hw hh hdx hdy, Option.some_bind]
  rw [do_ranges_checked_eq env state _ state.iterations _ (Rep.self state.iterations)
    (mandelbrot_ranges_inside _ _ _ hw hh hdx hdy)]

/-- C17: for a grid with `width ≥ 1`, `height ≥ 1` and a shift `(dx, dy)` with `|dx| < width`
and `|dy| < height`, the shift and fill phases of `render` run without a contract violation:
the run in which every row index passed to `row_begin` is checked against `height`, every
column index read or written is checked against `width`, every `u32` subtraction
(`width - n_cols`, `height - n_rows`, `width - 1 - n_cols`, `height - 1 - n_rows`, `y_len - 1`
and those of `copy_left` and `copy_right`) is checked not to wrap, and every range handed to
`do_mandelbrot` is checked to satisfy `x_begin ≤ x_end ≤ width` and
`y_begin ≤ y_end ≤ height`, returns a state, the same as the unchecked run; the ranges
selected are well formed and inside the grid. -/
theorem render_shift_fill_contracts_hold {R : Type} (env : Env R) (state : AppState R)
    (_hw1 : 1 ≤ state.iterations.width) (_hh1 : 1 ≤ state.iterations.height)
    (hw : state.iterations.width < 4294967296) (hh : state.iterations.height < 4294967296)
    (hdx : state.pixel_shift.x.natAbs < state.iterations.width)
    (hdy : state.pixel_shift.y.natAbs < state.iterations.height) :
    (∃ state', render_iterations_checked env state = some state') ∧
      render_iterations_checked env state = render_iterations env state ∧
      (∀ r ∈ mandelbrot_ranges state.iterations.width state.iterations.height
          state.pixel_shift,
        r.x_begin ≤ r.x_end ∧ r.x_end ≤ state.iterations.width ∧
          r.y_begin ≤ r.y_end ∧ r.y_end ≤ state.iterations.height) := by
  obtain ⟨m1, hc, hr1⟩ := copy_rep (Rep.self state.iterations) hw hh state.pixel_shift hdx hdy
  obtain ⟨m2, hm2, _⟩ := mandelbrot_rep env { state with iterations := m1 } hr1 hw hh hdx hdy
  have heq : render_iterations_checked env state = render_iterations env state := by
    simp only [render_iterations_checked, render_iterations,
      copy_checked_eq _ _ hw hh hdx hdy, hc, Option.some_bind]
    have e1 : m1.width = state.iterations.width := hr1.1
    have e2 : m1.height = state.iterations.height := hr1.2.1
    exact mandelbrot_checked_eq env { state with iterations := m1 }
      (show m1.width < 4294967296 by rw [e1]; exact hw)
      (show m1.height < 4294967296 by rw [e2]; exact hh)
      (show state.pixel_shift.x.natAbs < m1.width by rw [e1]; exact hdx)
      (show state.pixel_shift.y.natAbs < m1.height by rw [e2]; exact hdy)
  refine ⟨⟨{ state with iterations := m2 }, ?_⟩, heq,
    mandelbrot_ranges_inside state.iterations.width state.iterations.height
      state.pixel_shift hw hh hdx hdy⟩
  rw [heq]
  simp only [render_iterations, hc, Option.some_bind]
  exact hm2

/-- Witness for C17: the 4 by 3 sample grid with shift `(-3, 2)`. -/
theorem render_shift_fill_contracts_hold_witness :
    (∃ state', render_iterations_checked intEnv (sampleState sampleGrid ⟨-3, 2⟩ 5)
        = some state') ∧
      render_iterations_checked intEnv (sampleState sampleGrid ⟨-3, 2⟩ 5)
        = render_iterations intEnv (sampleState sampleGrid ⟨-3, 2⟩ 5) ∧
      (∀ r ∈ mandelbrot_ranges 4 3 ⟨-3, 2⟩,
        r.x_begin ≤ r.x_end ∧ r.x_end ≤ 4 ∧ r.y_begin ≤ r.y_end ∧ r.y_end ≤ 3) :=
  render_shift_fill_contracts_hold intEnv (sampleState sampleGrid ⟨-3, 2⟩ 5)
    (by decide) (by decide) (by decide) (by decide) (by decide) (by decide)

end Mandelbrot
